import Mathlib

/-!
Shallow embedding of the period-resolution / aggregation core of the
shift-allowance reporting backend (services under `src/services/`),
together with theorems checking the natural-language specification
against it.

Modelling conventions:
* Python strings are Lean `String`s; character-level operations go
  through `String.data` (a `List Char`).
* Python `float`/`Decimal` money amounts are modelled as `ℚ` (exact
  arithmetic; the spec reasons about sums, not rounding).
* Python `dict`s (which preserve insertion order) are modelled as
  association lists `List (K × V)` with an order-preserving
  insert-or-update operation `bump`.
* Python sets are modelled as `Finset`.
* SQL rows are modelled as lists of records; `NULL`able columns are
  `Option`-typed.
* A raised `HTTPException` is modelled with `Except HErr`.
-/

set_option linter.unusedVariables false
set_option linter.unusedSectionVars false

namespace ShiftRepo

/-- Model of fastapi `HTTPException(status_code, detail)`. -/
structure HErr where
  status : Nat
  detail : String
deriving DecidableEq, Repr

/-! ## Ordered association lists (Python `dict` with insertion order) -/

section AList

variable {K : Type} {A : Type} [DecidableEq K]

/-- Lookup in an association list (first match). -/
def alookup (l : List (K × A)) (k : K) : Option A :=
  match l with
  | [] => none
  | (k0, v) :: t => if k0 = k then some v else alookup t k

/-- `bump l k init f`: the Python idiom
`if k not in d: d[k] = init` followed by in-place mutation `f` of `d[k]`.
Insertion order is preserved; a missing key is appended at the end. -/
def bump (l : List (K × A)) (k : K) (init : A) (f : A → A) : List (K × A) :=
  match l with
  | [] => [(k, f init)]
  | (k0, v) :: t => if k0 = k then (k0, f v) :: t else (k0, v) :: bump t k init f

/-- Keys of an association list, in order. -/
def akeys (l : List (K × A)) : List K := l.map Prod.fst

@[simp] theorem akeys_nil : akeys ([] : List (K × A)) = [] := rfl

@[simp] theorem akeys_cons (k0 : K) (v : A) (t : List (K × A)) :
    akeys ((k0, v) :: t) = k0 :: akeys t := rfl

theorem alookup_bump (l : List (K × A)) (k k1 : K) (init : A) (f : A → A) :
    alookup (bump l k init f) k1 =
      if k = k1 then some (f ((alookup l k1).getD init)) else alookup l k1 := by
  induction l with
  | nil =>
    by_cases h : k = k1 <;> simp [bump, alookup, h]
  | cons hd t ih =>
    obtain ⟨k0, v⟩ := hd
    by_cases h0 : k0 = k
    · subst h0
      by_cases h1 : k0 = k1
      · subst h1; simp [bump, alookup]
      · simp [bump, alookup, h1, if_neg h1]
    · by_cases h1 : k0 = k1
      · subst h1
        have hk : ¬ k = k0 := fun h => h0 h.symm
        simp [bump, alookup, h0, hk]
      · simp [bump, alookup, h0, h1, ih]

theorem akeys_bump (l : List (K × A)) (k : K) (init : A) (f : A → A) :
    akeys (bump l k init f) = if k ∈ akeys l then akeys l else akeys l ++ [k] := by
  induction l with
  | nil => simp [bump, akeys]
  | cons hd t ih =>
    obtain ⟨k0, v⟩ := hd
    by_cases h0 : k0 = k
    · subst h0; simp [bump, akeys]
    · have hne : ¬ k = k0 := fun h => h0 h.symm
      by_cases hmem : k ∈ akeys t
      · simp only [akeys, List.map_cons, List.mem_cons] at *
        simp [bump, h0, hne, hmem, ih, akeys]
      · simp only [akeys, List.map_cons, List.mem_cons] at *
        simp [bump, h0, hne, hmem, ih, akeys]

theorem mem_akeys_bump (l : List (K × A)) (k k1 : K) (init : A) (f : A → A) :
    k1 ∈ akeys (bump l k init f) ↔ k1 ∈ akeys l ∨ k1 = k := by
  rw [akeys_bump]
  by_cases hmem : k ∈ akeys l
  · simp only [hmem, if_true]
    refine ⟨Or.inl, ?_⟩
    rintro (h | h)
    · exact h
    · subst h; exact hmem
  · simp [hmem]

theorem nodup_akeys_bump (l : List (K × A)) (k : K) (init : A) (f : A → A)
    (h : (akeys l).Nodup) : (akeys (bump l k init f)).Nodup := by
  rw [akeys_bump]
  by_cases hmem : k ∈ akeys l
  · simpa [hmem] using h
  · simp only [hmem, if_false]
    simpa [List.nodup_append] using ⟨h, hmem⟩

/-- Values of an association list, in order. -/
def avals (l : List (K × A)) : List A := l.map Prod.snd

theorem alookup_eq_none_iff (l : List (K × A)) (k : K) :
    alookup l k = none ↔ k ∉ akeys l := by
  induction l with
  | nil => simp [alookup, akeys]
  | cons hd t ih =>
    obtain ⟨k0, v⟩ := hd
    by_cases h0 : k0 = k
    · subst h0; simp [alookup]
    · have hne : k ≠ k0 := fun h => h0 h.symm
      simp [alookup, h0, ih, hne, hne.symm]

theorem alookup_isSome_iff (l : List (K × A)) (k : K) :
    (alookup l k).isSome ↔ k ∈ akeys l := by
  induction l with
  | nil => simp [alookup]
  | cons hd t ih =>
    obtain ⟨k0, v⟩ := hd
    by_cases h0 : k0 = k
    · subst h0; simp [alookup]
    · have hne : k ≠ k0 := fun h => h0 h.symm
      simp [alookup, h0, ih, hne, hne.symm]

end AList

/-! ## Characterisation of a row-fold of `bump`s (the aggregation loops) -/

section FoldBump

variable {K A R B : Type} [DecidableEq K]

theorem alookup_foldl_bump (key : R → K) (init : R → A) (upd : R → A → A)
    (rows : List R) (s : List (K × A)) (k : K) :
    alookup (rows.foldl (fun acc r => bump acc (key r) (init r) (upd r)) s) k =
      rows.foldl (fun o r => if key r = k then some (upd r (o.getD (init r))) else o)
        (alookup s k) := by
  induction rows generalizing s with
  | nil => rfl
  | cons r rs ih =>
    simp only [List.foldl_cons]
    rw [ih, alookup_bump]

theorem foldl_filter_eq (p : R → Prop) [DecidablePred p] (g : B → R → B)
    (rows : List R) (b : B) :
    (rows.filter (fun r => p r)).foldl g b =
      rows.foldl (fun acc r => if p r then g acc r else acc) b := by
  induction rows generalizing b with
  | nil => rfl
  | cons r rs ih =>
    by_cases h : p r <;> simp [List.filter_cons, h, ih]

theorem optFoldl_some (init : R → A) (upd : R → A → A) (rows : List R) (a : A) :
    rows.foldl (fun o r => some (upd r (o.getD (init r)))) (some a) =
      some (rows.foldl (fun x r => upd r x) a) := by
  induction rows generalizing a with
  | nil => rfl
  | cons r rs ih => simp [ih]

/-- Closed form of a grouping fold starting from an empty dict: the entry at
key `k` is obtained by folding the update over exactly the rows of group `k`,
seeded by the first such row's init template. -/
theorem alookup_foldl_bump_nil (key : R → K) (init : R → A) (upd : R → A → A)
    (rows : List R) (k : K) :
    alookup (rows.foldl (fun acc r => bump acc (key r) (init r) (upd r)) []) k =
      match rows.filter (fun r => key r = k) with
      | [] => none
      | r :: rs => some (rs.foldl (fun a r => upd r a) (upd r (init r))) := by
  rw [alookup_foldl_bump]
  show rows.foldl (fun o r => if key r = k then some (upd r (o.getD (init r))) else o) none = _
  rw [← foldl_filter_eq (fun r => key r = k)
        (fun o r => some (upd r (o.getD (init r)))) rows none]
  cases h : rows.filter (fun r => key r = k) with
  | nil => rfl
  | cons r rs => simp [optFoldl_some]

/-- Keys accumulated by a Python-dict grouping loop, in first-seen order. -/
def seenKeys (key : R → K) (rows : List R) (ks : List K) : List K :=
  rows.foldl (fun acc r => if key r ∈ acc then acc else acc ++ [key r]) ks

theorem akeys_foldl_bump (key : R → K) (init : R → A) (upd : R → A → A)
    (rows : List R) (s : List (K × A)) :
    akeys (rows.foldl (fun acc r => bump acc (key r) (init r) (upd r)) s) =
      seenKeys key rows (akeys s) := by
  induction rows generalizing s with
  | nil => rfl
  | cons r rs ih =>
    simp only [List.foldl_cons]
    rw [ih]
    show seenKeys key rs (akeys (bump s (key r) (init r) (upd r))) = _
    rw [akeys_bump]
    rfl

theorem mem_seenKeys (key : R → K) (rows : List R) (ks : List K) (k : K) :
    k ∈ seenKeys key rows ks ↔ k ∈ ks ∨ k ∈ rows.map key := by
  induction rows generalizing ks with
  | nil => simp [seenKeys]
  | cons r rs ih =>
    show k ∈ seenKeys key rs (if key r ∈ ks then ks else ks ++ [key r]) ↔ _
    by_cases h : key r ∈ ks
    · rw [if_pos h, ih]
      constructor
      · rintro (hk | hk)
        · exact Or.inl hk
        · exact Or.inr (by simp [hk])
      · rintro (hk | hk)
        · exact Or.inl hk
        · simp only [List.map_cons, List.mem_cons] at hk
          rcases hk with hk | hk
          · exact Or.inl (hk ▸ h)
          · exact Or.inr hk
    · rw [if_neg h, ih]
      simp only [List.mem_append, List.mem_singleton, List.map_cons, List.mem_cons]
      tauto

theorem seenKeys_nodup (key : R → K) (rows : List R) (ks : List K)
    (h : ks.Nodup) : (seenKeys key rows ks).Nodup := by
  induction rows generalizing ks with
  | nil => exact h
  | cons r rs ih =>
    show (seenKeys key rs (if key r ∈ ks then ks else ks ++ [key r])).Nodup
    by_cases hm : key r ∈ ks
    · rw [if_pos hm]; exact ih ks h
    · rw [if_neg hm]
      exact ih _ (by simpa [List.nodup_append] using ⟨h, hm⟩)

/-- The number of dict keys accumulated by a grouping loop over `rows` is the
number of distinct group keys among the rows — never the number of rows. -/
theorem length_seenKeys_nil (key : R → K) (rows : List R) :
    (seenKeys key rows []).length = (rows.map key).toFinset.card := by
  have hnd : (seenKeys key rows []).Nodup := seenKeys_nodup key rows [] List.nodup_nil
  have hfin : (seenKeys key rows []).toFinset = (rows.map key).toFinset := by
    ext x
    simp [List.mem_toFinset, mem_seenKeys]
  calc (seenKeys key rows []).length
      = (seenKeys key rows []).toFinset.card := (List.toFinset_card_of_nodup hnd).symm
    _ = (rows.map key).toFinset.card := by rw [hfin]

theorem foldl_add_field (v : R → ℚ) (rows : List R) (x0 : ℚ) :
    rows.foldl (fun x r => x + v r) x0 = x0 + (rows.map v).sum := by
  induction rows generalizing x0 with
  | nil => simp
  | cons r rs ih => simp [ih]; ring

theorem foldl_update_apply (f : R → K) (v : R → ℚ) (rows : List R)
    (t0 : K → ℚ) (k : K) :
    (rows.foldl (fun t r => Function.update t (f r) (t (f r) + v r)) t0) k =
      t0 k + ((rows.filter (fun r => f r = k)).map v).sum := by
  induction rows generalizing t0 with
  | nil => simp
  | cons r rs ih =>
    simp only [List.foldl_cons, List.filter_cons]
    by_cases h : f r = k
    · rw [ih]
      simp [Function.update, h]
      ring
    · rw [ih]
      have hk : ¬ k = f r := fun hk => h hk.symm
      simp [Function.update, h, hk]

theorem foldl_optInsert_finset (g : R → Option K) (rows : List R) (s0 : Finset K) :
    rows.foldl (fun s r => match g r with | some x => insert x s | none => s) s0 =
      s0 ∪ (rows.filterMap g).toFinset := by
  induction rows generalizing s0 with
  | nil => simp
  | cons r rs ih =>
    simp only [List.foldl_cons, List.filterMap_cons]
    cases hg : g r with
    | none =>
      simp only [hg]
      exact ih s0
    | some x =>
      simp only [hg]
      rw [ih, List.toFinset_cons]
      ext y
      simp only [Finset.mem_union, Finset.mem_insert, List.mem_toFinset]
      tauto

end FoldBump

/-! ## Python string helpers (`clean_str` and friends) -/

/-- Single-quote character (written by code point so the file stays free of
quote-literal noise). -/
def squote : Char := Char.ofNat 39

/-- Double-quote character. -/
def dquote : Char := Char.ofNat 34

/-- Zero-width space `​`. -/
def zwspace : Char := Char.ofNat 0x200b

/-- Non-breaking space ` `. -/
def nbspace : Char := Char.ofNat 0xa0

/-- `str.strip()`.  Python additionally strips ` ` at the ends, but
`clean_str` removes every ` ` (and `​`) globally between its two
`strip` calls, so the composite `cleanStrC` below is unaffected by this
difference. -/
def trimC (l : List Char) : List Char :=
  ((l.dropWhile Char.isWhitespace).reverse.dropWhile Char.isWhitespace).reverse

/-- One iteration of `clean_str`'s quote-unwrapping loop:
`if len(s) >= 2 and s[0] == s[-1] and s[0] in ("'", '"') : s = s[1:-1].strip()`. -/
def stripPairedQuote (l : List Char) : List Char :=
  if 2 ≤ l.length ∧ l.head? = l.getLast? ∧ (l.head? = some squote ∨ l.head? = some dquote)
  then trimC ((l.drop 1).dropLast)
  else l

/-- `clean_str` from `client_summary_service.py` (the identical definition is
repeated in `dashboard_service.py`), at the character-list level. -/
def cleanStrC (l : List Char) : List Char :=
  let s1 := trimC l
  let s2 := trimC ((s1.filter (fun c => c ≠ zwspace)).filter (fun c => c ≠ nbspace))
  let s3 := stripPairedQuote (stripPairedQuote s2)
  if s3 = [squote] ∨ s3 = [squote, squote] ∨ s3 = [dquote] ∨ s3 = [dquote, dquote] then []
  else if s3.map Char.toUpper = "NULL".data ∨ s3.map Char.toUpper = "NONE".data ∨
       s3.map Char.toUpper = "NAN".data then []
  else s3

/-- `clean_str` on a nullable DB string (`None -> ""`). -/
def cleanStr (v : Option String) : String :=
  match v with
  | none => ""
  | some s => ⟨cleanStrC s.data⟩

def pyUpper (s : String) : String := ⟨s.data.map Char.toUpper⟩

def pyLower (s : String) : String := ⟨s.data.map Char.toLower⟩

def pyStrip (s : String) : String := ⟨trimC s.data⟩

/-- Python `str.isdigit()` restricted to the ASCII digits used by this
code base (`""` is not a digit string). -/
def pyIsDigit (l : List Char) : Bool := !l.isEmpty && l.all Char.isDigit

/-- Value of a decimal digit string (`int(s)` for an all-digit `s`). -/
def pyIntOfDigits (l : List Char) : Nat := l.foldl (fun n c => 10 * n + (c.toNat - 48)) 0

/-- Python `s.split(sep)` for a single-character separator. -/
def splitOnChar (c : Char) (l : List Char) : List (List Char) :=
  match l with
  | [] => [[]]
  | a :: t =>
    let r := splitOnChar c t
    if a = c then [] :: r
    else
      match r with
      | [] => [[a]]
      | h :: t2 => (a :: h) :: t2

/-! ## `client_summary_service.py`: row type and aggregation loop

A row is one tuple produced by `build_base_query`: `ShiftAllowances` joined to
`ShiftMapping`, outer-joined to `ShiftsAmount` on
`(shift_type, payroll_year = year(duration_month))`.  `amount = none` models
the outer join producing SQL `NULL` when no rate matches that shift type and
payroll year.  `duration_month` is reduced to its `(year, month)` pair, which
is exactly the information `strftime("%Y-%m")` keys the aggregation by. -/

structure SRow where
  duration_month : Int × Int
  client : Option String
  department : Option String
  emp_id : Option String
  emp_name : Option String
  client_partner : Option String
  shift_type : Option String
  days : Option ℚ
  amount : Option ℚ

/-- `value = float(row.days or 0.0) * float(row.amount or 0.0)`. -/
def rowValue (r : SRow) : ℚ := (r.days.getD 0) * (r.amount.getD 0)

/-- `shift_key = clean_str(row.shift_type).upper()`. -/
def shiftKeyOf (r : SRow) : String := pyUpper (cleanStr r.shift_type)

def clientNameOf (r : SRow) : String := cleanStr r.client

def deptNameOf (r : SRow) : String := cleanStr r.department

/-- `eid = clean_str(row.emp_id)` — note that a row with a NULL or
effectively-empty id yields the key `""`. -/
def eidOf (r : SRow) : String := cleanStr r.emp_id

/-- Employee accumulator (`emp_entry`).  `shift` is total-by-shift-key; keys
outside the configured set are never touched and stay `0`, standing for
"absent from the Python dict". -/
structure EmpAgg where
  emp_id : String
  emp_name : String
  client_partner : String
  total : ℚ
  shift : String → ℚ

/-- Department accumulator during the row loop (`dept_data` with `_emp_map`). -/
structure DeptAgg where
  shift : String → ℚ
  dept_total : ℚ
  emp_map : List (String × EmpAgg)

/-- Client accumulator during the row loop.  `client_head_count`,
`client_total` and the per-shift totals are initialised to zero by the code
and fully recomputed during finalisation, so they live on `ClientOut` below. -/
structure ClientAgg where
  client_name : String
  client_partner : String
  departments : List (String × DeptAgg)

structure MonthAgg where
  clients : List (String × ClientAgg)

def empInit (r : SRow) : EmpAgg :=
  { emp_id := eidOf r, emp_name := cleanStr r.emp_name,
    client_partner := cleanStr r.client_partner, total := 0, shift := fun _ => 0 }

def empUpd (r : SRow) (e : EmpAgg) : EmpAgg :=
  { e with
    shift := Function.update e.shift (shiftKeyOf r) (e.shift (shiftKeyOf r) + rowValue r),
    total := e.total + rowValue r }

def deptInit : DeptAgg := { shift := fun _ => 0, dept_total := 0, emp_map := [] }

def deptUpd (r : SRow) (d : DeptAgg) : DeptAgg :=
  { shift := Function.update d.shift (shiftKeyOf r) (d.shift (shiftKeyOf r) + rowValue r),
    dept_total := d.dept_total + rowValue r,
    emp_map := bump d.emp_map (eidOf r) (empInit r) (empUpd r) }

def clientInit (r : SRow) : ClientAgg :=
  { client_name := clientNameOf r, client_partner := cleanStr r.client_partner,
    departments := [] }

def clientUpd (r : SRow) (c : ClientAgg) : ClientAgg :=
  { c with departments := bump c.departments (deptNameOf r) deptInit (deptUpd r) }

def monthInit : MonthAgg := { clients := [] }

/-- One iteration of the aggregation `for row in rows` loop.  The month
template is created *before* the `if shift_key not in shift_key_set: continue`
check, so a month whose rows are all skipped still appears (empty). -/
def monthUpd (shiftKeySet : List String) (r : SRow) (m : MonthAgg) : MonthAgg :=
  if shiftKeyOf r ∈ shiftKeySet then
    { clients := bump m.clients (clientNameOf r) (clientInit r) (clientUpd r) }
  else m

/-- The full aggregation loop of `client_summary_service`. -/
def aggregate (shiftKeys : List String) (rows : List SRow) :
    List ((Int × Int) × MonthAgg) :=
  rows.foldl (fun acc r => bump acc r.duration_month monthInit (monthUpd shiftKeys r)) []

/-! ### Finalisation, headcount filter, sort, month totals -/

/-- Finalised department node. -/
structure DeptOut where
  dept_head_count : Nat
  dept_total : ℚ
  employees : List EmpAgg
  shift : String → ℚ

/-- `emp_map = dept_data.pop("_emp_map"); employees = list(emp_map.values());
dept_head_count = len(employees)`. -/
def finalizeDept (d : DeptAgg) : DeptOut :=
  { dept_head_count := d.emp_map.length,
    dept_total := d.dept_total,
    employees := avals d.emp_map,
    shift := d.shift }

structure ClientFin where
  client_name : String
  client_partner : String
  departments : List (String × DeptOut)

def finalizeClient (c : ClientAgg) : ClientFin :=
  { client_name := c.client_name, client_partner := c.client_partner,
    departments := c.departments.map (fun p => (p.1, finalizeDept p.2)) }

/-- The Python set `unique_emp_ids`: employee ids across all of a client's
departments, skipping falsy (empty) ids. -/
def clientUniqueIds (depts : List (String × DeptOut)) : Finset String :=
  ((((depts.map Prod.snd).map DeptOut.employees).flatten.map EmpAgg.emp_id).filter
    (fun e => e ≠ "")).toFinset

/-- `range_matches(hc, ranges)`: `ranges` falsy (None or empty list) accepts
everything, otherwise any containing range accepts. -/
def rangeMatches (hc : Nat) : Option (List (Nat × Nat)) → Bool
  | none => true
  | some [] => true
  | some rs => rs.any (fun p => decide (p.1 ≤ hc) && decide (hc ≤ p.2))

/-- Finalised, filter-surviving client node with its recomputed totals. -/
structure ClientOut where
  client_name : String
  client_partner : String
  departments : List (String × DeptOut)
  client_head_count : Nat
  client_total : ℚ
  shift : String → ℚ

/-- The `filtered_clients` loop: compute `client_total`, per-shift totals and
the unique-employee head count, then keep the client only if the head count
matches the requested ranges (`continue` drops it entirely).  The per-shift
totals are assigned for each configured key; at unconfigured keys both the
template value and the department sums are `0`, so the pointwise sum is used. -/
def filterClients (ranges : Option (List (Nat × Nat)))
    (cs : List (String × ClientFin)) : List (String × ClientOut) :=
  cs.filterMap (fun p =>
    let depts := p.2.departments
    let clientTotal := ((depts.map Prod.snd).map DeptOut.dept_total).sum
    let hc := (clientUniqueIds depts).card
    if rangeMatches hc ranges then
      some (p.1,
        { client_name := p.2.client_name,
          client_partner := p.2.client_partner,
          departments := depts,
          client_head_count := hc,
          client_total := clientTotal,
          shift := fun k => ((depts.map Prod.snd).map (fun d => d.shift k)).sum })
    else none)

/-- `actual_sort_field` selection. -/
def actualSortField (sort_by : String) : String :=
  if sort_by = "total_allowance" then "client_total"
  else if sort_by = "head_count" then "client_head_count"
  else if sort_by = "client_name" then "client_name"
  else sort_by

/-- `x[1].get(actual_sort_field, 0)` for the numeric sort fields (the two
computed totals and the per-shift keys); any other key falls back to the
`get` default `0`.  The theorems below only exercise the numeric fields. -/
def clientSortVal (shiftKeys : List String) (field : String) (c : ClientOut) : ℚ :=
  if field = "client_total" then c.client_total
  else if field = "client_head_count" then (c.client_head_count : ℚ)
  else if field ∈ shiftKeys then c.shift field
  else 0

/-- The sort step.  Python's `list.sort` is stable; `reverse=True` keeps the
original order of equal keys, which is exactly a stable sort under the
flipped relation, hence the `insertionSort` with swapped arguments.
Note there is no special case for `sort_order = "default"`: the code computes
`reverse = sort_order != "asc"` and always sorts. -/
def sortClients (shiftKeys : List String) (sort_by sort_order : String)
    (items : List (String × ClientOut)) : List (String × ClientOut) :=
  let field := actualSortField sort_by
  let rev := sort_order ≠ "asc"
  if field = "client_name" then
    let keyf : String × ClientOut → String := fun p => pyLower p.2.client_name
    if rev then List.insertionSort (fun a b => keyf b ≤ keyf a) items
    else List.insertionSort (fun a b => keyf a ≤ keyf b) items
  else
    let keyf : String × ClientOut → ℚ := fun p => clientSortVal shiftKeys field p.2
    if rev then List.insertionSort (fun a b => keyf b ≤ keyf a) items
    else List.insertionSort (fun a b => keyf a ≤ keyf b) items

structure MonthOut where
  clients : List (String × ClientOut)
  month_total_shift : String → ℚ
  total_head_count : Nat
  total_allowance : ℚ

/-- Per-month finalisation: finalize departments, compute-and-filter clients,
sort, then recompute the month totals over exactly the surviving clients. -/
def buildMonth (shiftKeys : List String) (ranges : Option (List (Nat × Nat)))
    (sort_by sort_order : String) (m : MonthAgg) : MonthOut :=
  let fin := m.clients.map (fun p => (p.1, finalizeClient p.2))
  let filtered := filterClients ranges fin
  let sorted := sortClients shiftKeys sort_by sort_order filtered
  { clients := sorted,
    month_total_shift := fun k => ((sorted.map Prod.snd).map (fun c => c.shift k)).sum,
    total_head_count := ((sorted.map Prod.snd).map ClientOut.client_head_count).sum,
    total_allowance := ((sorted.map Prod.snd).map ClientOut.client_total).sum }

/-- Aggregation part of `client_summary_service` after the rows are fetched:
group into months, then finalise each month. -/
def clientSummaryPipeline (shiftKeys : List String)
    (ranges : Option (List (Nat × Nat))) (sort_by sort_order : String)
    (rows : List SRow) : List ((Int × Int) × MonthOut) :=
  (aggregate shiftKeys rows).map
    (fun p => (p.1, buildMonth shiftKeys ranges sort_by sort_order p.2))

/-! ### `parse_headcount_ranges` (client_summary_service) -/

/-- The payload shapes `parse_headcount_ranges` receives:
the literal `"ALL"` default, a bare string, or a list of strings. -/
inductive HPayload where
  | all
  | one (s : String)
  | many (l : List String)
deriving DecidableEq, Repr

/-- The literal hint `1-5` wrapped in single quotes, as it appears in the
format-error detail of `parse_headcount_ranges`. -/
def useHint15 : String := ⟨[squote, '1', '-', '5', squote]⟩

/-- One item of the loop body of `parse_headcount_ranges`. -/
def parseRangeItem (h : String) : Except HErr (Nat × Nat) :=
  let l := h.data
  if ('-' : Char) ∈ l then
    match splitOnChar '-' l with
    | [a, b] =>
      if pyIsDigit a && pyIsDigit b then
        let lo := pyIntOfDigits a
        let hi := pyIntOfDigits b
        if lo > hi then Except.error ⟨400, "Invalid headcount range: " ++ h⟩
        else Except.ok (lo, hi)
      else Except.error ⟨400, "Invalid headcount range format: " ++ h ++ ". Use " ++ useHint15⟩
    | _ => Except.error ⟨400, "Invalid headcount range format: " ++ h ++ ". Use " ++ useHint15⟩
  else if pyIsDigit l then Except.ok (pyIntOfDigits l, pyIntOfDigits l)
  else Except.error ⟨400, "Invalid headcount range format: " ++ h⟩

def parseHeadcountList (l : List String) : Except HErr (List (Nat × Nat)) :=
  match l with
  | [] => Except.ok []
  | h :: t => do
    let r ← parseRangeItem h
    let rest ← parseHeadcountList t
    Except.ok (r :: rest)

/-- `parse_headcount_ranges(headcounts_payload)`: `"ALL"` → no filtering,
a bare string is wrapped into a one-element list, then each item is parsed. -/
def parseHeadcountRanges : HPayload → Except HErr (Option (List (Nat × Nat)))
  | .all => Except.ok none
  | .one s =>
      if s = "ALL" then Except.ok none
      else (parseHeadcountList [s]).map some
  | .many l => (parseHeadcountList l).map some

/-! ## Calendar periods

`duration_month` is a first-of-month date; the resolvers only ever use its
`(year, month)` pair, the SQL comparisons `duration_month >= cutoff` reduce to
the lexicographic order on those pairs. -/

abbrev YM := Int × Int

def ymLe (a b : YM) : Prop := a.1 < b.1 ∨ (a.1 = b.1 ∧ a.2 ≤ b.2)

instance : DecidableRel ymLe := fun a b =>
  inferInstanceAs (Decidable (a.1 < b.1 ∨ (a.1 = b.1 ∧ a.2 ≤ b.2)))

def ymLeb (a b : YM) : Bool := decide (ymLe a b)

/-- `ORDER BY duration_month DESC ... first()`: the latest period present. -/
def latestYM : List YM → Option YM
  | [] => none
  | p :: t =>
    match latestYM t with
    | none => some p
    | some q => some (if ymLeb p q then q else p)

/-- The previous calendar month. -/
def prevYM (p : YM) : YM := if p.2 = 1 then (p.1 - 1, 12) else (p.1, p.2 - 1)

/-- `[today, today - 1 month, ...]`, `n` entries. -/
def monthsBack : YM → Nat → List YM
  | _, 0 => []
  | p, Nat.succ k => p :: monthsBack (prevYM p) k

/-- Insertion-order-preserving dedup (`seen` set + `result` list idiom). -/
def dedupKeepFirst {α : Type} [DecidableEq α] (l : List α) : List α :=
  l.foldl (fun acc x => if x ∈ acc then acc else acc ++ [x]) []

/-- Python `sorted(set(l))` for `(year, month)` pairs. -/
def sortedDedupYM (l : List YM) : List YM :=
  List.insertionSort ymLe (dedupKeepFirst l)

/-- Python `sorted(set(l))` for ints. -/
def sortedDedupInt (l : List Int) : List Int :=
  List.insertionSort (fun a b : Int => a ≤ b) (dedupKeepFirst l)

/-- `_last_n_month_pairs` from `dashboard_service.py`. -/
def lastNMonthPairs (e : YM) (n : Nat) : List YM := sortedDedupYM (monthsBack e n)

/-! ## `client_comparision_service._resolve_periods_and_messages`

The Row Source is abstracted to the list of `(year, month)` periods that have
at least one row under the service's base query (the SQL `first()` existence
probes and `ORDER BY ... DESC` maxima only depend on that set). -/

/-- Second (operative) definition of `_normalize_years`: keep first
occurrences.  `_safe_int` is the identity on the integer payloads modelled
here. -/
def normalizeYears (ys : List Int) : List Int := dedupKeepFirst ys

/-- Second (operative) definition of `_normalize_months`: keep months in
`1..12`, then first occurrences. -/
def normalizeMonths (ms : List Int) : List Int :=
  dedupKeepFirst (ms.filter (fun m => 1 ≤ m ∧ m ≤ 12))

/-- `months_by_year` accumulation: `setdefault(y, []).append(m)`. -/
def groupPairsByYear (pairs : List YM) : List (Int × List Int) :=
  pairs.foldl (fun acc p => bump acc p.1 [] (fun ms => ms ++ [p.2])) []

def resolvePeriodsAndMessages (data : List YM) (rawYears rawMonths : List Int)
    (today : YM) : List Int × List (Int × List Int) × List String :=
  let currentYear := today.1
  let currentMonth := today.2
  let rawYears := if rawYears = [0] then [] else rawYears
  let rawMonths := if rawMonths = [0] then [] else rawMonths
  let years0 := normalizeYears rawYears
  let months0 := normalizeMonths rawMonths
  let step : List Int × List Int × List String :=
    if years0 = [] ∧ months0 = [] then
      if (currentYear, currentMonth) ∈ data then
        ([currentYear], [currentMonth], [])
      else
        let cutoff : YM := (currentYear - 1, currentMonth)
        match latestYM (data.filter (fun p => ymLeb cutoff p)) with
        | some latest =>
          ([latest.1], [latest.2],
            ["No data for current month. Showing latest available month in last 12 months: "
              ++ toString latest.2 ++ "-" ++ toString latest.1])
        | none =>
          match latestYM data with
          | some latest =>
            ([latest.1], [latest.2],
              ["No data in last 12 months. Showing latest available month in the database: "
                ++ toString latest.2 ++ "-" ++ toString latest.1])
          | none =>
            ([currentYear], [currentMonth],
              ["No data in the database. Defaulting to current month."])
    else if months0 ≠ [] ∧ years0 = [] then
      ([currentYear], months0, [])
    else if years0 ≠ [] ∧ months0 = [] then
      (years0, [1, 2, 3, 4, 5, 6, 7, 8, 9, 10, 11, 12], [])
    else
      (years0, months0, [])
  let years := step.1
  let months := step.2.1
  let messages := step.2.2
  let pairs0 := (years.map (fun y =>
    months.filterMap (fun m =>
      if (y > currentYear) ∨ (y = currentYear ∧ m > currentMonth) then none
      else some ((y, m) : YM)))).flatten
  let pairs1 :=
    if pairs0 = [] then (years.map (fun y => months.map (fun m => ((y, m) : YM)))).flatten
    else pairs0
  let pairs := sortedDedupYM pairs1
  let monthsByYear := groupPairsByYear pairs
  (monthsByYear.map Prod.fst, monthsByYear, messages)

/-! ## `dashboard_service.validate_years_months_with_warnings` and its
silent fallback `_fallback_pairs_for_empty_selection` -/

/-- `_coerce_int_list(values, "years", four_digit_year=True)` on integer
payloads: a year passes `clean_str`/`isdigit`/`len == 4` exactly when it lies
in `1000..9999`. -/
def coerceYears (ys : List Int) : Except HErr (List Int) :=
  match ys with
  | [] => Except.ok []
  | y :: t =>
    if 1000 ≤ y ∧ y ≤ 9999 then do
      let rest ← coerceYears t
      Except.ok (y :: rest)
    else Except.error ⟨400, "Invalid year. Year must be in YYYY format (e.g., 2024)."⟩

/-- `_fallback_pairs_for_empty_selection`: always one pair, `warnings`
passed through untouched (the fallback is silent). -/
def fallbackPairsForEmptySelection (data : Option (List YM)) (today : YM)
    (warnings : List String) : List YM × List String :=
  match data with
  | none => ([today], warnings)
  | some db =>
    if today ∈ db then ([today], warnings)
    else
      let window := lastNMonthPairs today 12
      match latestYM (db.filter (fun p => p ∈ window)) with
      | some l => ([l], warnings)
      | none =>
        match latestYM db with
        | some l => ([l], warnings)
        | none => ([today], warnings)

/-- `1..n` as `Int`s (`range(1, max_month + 1)`). -/
def intRange1 (n : Int) : List Int :=
  if h : 0 ≤ n then (List.range n.toNat).map (fun i => (i : Int) + 1) else []

def validateYearsMonthsWithWarnings (data : Option (List YM)) (today : YM)
    (yearsIn monthsIn : List Int) : Except HErr (List YM × List String) := do
  let years0 ← coerceYears yearsIn
  let months0 := monthsIn
  let years1 := years0.filter (fun y => y ≠ 0)
  let months1 := months0.filter (fun m => m ≠ 0)
  let months2 := months1.filter (fun m => 1 ≤ m ∧ m ≤ 12)
  if months2 ≠ [] ∧ years1 = [] then
    let futureMonths := sortedDedupInt (months2.filter (fun m => m > today.2))
    let warnings :=
      if futureMonths ≠ [] then
        ["future month(s) for " ++ toString today.1 ++ ": " ++ toString futureMonths]
      else []
    let months3 := months2.filter (fun m => m ≤ today.2)
    if months3 = [] then
      Except.ok (fallbackPairsForEmptySelection data today warnings)
    else
      Except.ok (sortedDedupYM (months3.map (fun m => ((today.1, m) : YM))), warnings)
  else if years1 ≠ [] then
    let years2 := years1.filter (fun y => y ≤ today.1)
    if years2 = [] then
      Except.ok (fallbackPairsForEmptySelection data today [])
    else
      let yearsOrdered := dedupKeepFirst years2
      if months2 = [] then
        let pairs2 := (yearsOrdered.map (fun y =>
          (intRange1 (if y = today.1 then today.2 else 12)).map
            (fun m => ((y, m) : YM)))).flatten
        Except.ok (sortedDedupYM pairs2, [])
      else
        let warnAcc := yearsOrdered.foldl (fun acc y =>
          let maxMonth : Int := if y = today.1 then today.2 else 12
          let bad := sortedDedupInt (months2.filter (fun m => m > maxMonth))
          if bad ≠ [] then
            acc ++ ["future month(s) for " ++ toString y ++ ": " ++ toString bad]
          else acc) []
        let pairs3 := (yearsOrdered.map (fun y =>
          let maxMonth : Int := if y = today.1 then today.2 else 12
          (months2.filter (fun m => m ≤ maxMonth)).map (fun m => ((y, m) : YM)))).flatten
        if pairs3 = [] then
          Except.ok (fallbackPairsForEmptySelection data today warnAcc)
        else
          Except.ok (sortedDedupYM pairs3, warnAcc)
  else
    Except.ok (fallbackPairsForEmptySelection data today [])

/-! ## `search_service._resolve_periods_with_meta` -/

/-- `f"{n:02d}"` for the month values used here. -/
def pad2 (n : Int) : String :=
  if 0 ≤ n ∧ n < 10 then "0" ++ toString n else toString n

/-- `f"{n:04d}"` for the (already 4-digit) year values used here. -/
def pad4 (n : Int) : String := toString n

def ymStr (p : YM) : String := pad4 p.1 ++ "-" ++ pad2 p.2

structure SearchMeta where
  assumed_current_year : Bool
  current_month_attempted : Option String
  current_month_fallback_used : Option String
  excluded_future_periods : List String
deriving DecidableEq, Repr

def searchValidateYear (today : YM) (y : Int) : Except HErr Int :=
  if ¬(1000 ≤ y ∧ y ≤ 9999) then
    Except.error ⟨400, "Years must be 4-digit integers (YYYY)"⟩
  else if y > today.1 then
    Except.error ⟨400, "Future year " ++ toString y ++ " cannot be selected"⟩
  else Except.ok y

def searchValidateMonth (m : Int) : Except HErr Int :=
  if ¬(1 ≤ m ∧ m ≤ 12) then
    Except.error ⟨400, "Months must be integers between 1 and 12"⟩
  else Except.ok m

def mapExcept {α β : Type} (f : α → Except HErr β) : List α → Except HErr (List β)
  | [] => Except.ok []
  | a :: t => do
    let b ← f a
    let rest ← mapExcept f t
    Except.ok (b :: rest)

/-- `get_default_start_month`: walk back up to 12 months from today and
return the first month with data, else 404. -/
def getDefaultStartMonth (data : List YM) (today : YM) : Except HErr YM :=
  match (monthsBack today 12).find? (fun p => decide (p ∈ data)) with
  | some p => Except.ok p
  | none => Except.error ⟨404, "No data found in the last 12 months"⟩

def resolvePeriodsWithMeta (data : List YM) (today : YM)
    (years months : Option (List Int)) : Except HErr (List YM × SearchMeta) := do
  let meta0 : SearchMeta := ⟨false, none, none, []⟩
  if (years.getD []) = [] ∧ (months.getD []) = [] then
    let currentStr := ymStr today
    let meta1 := { meta0 with current_month_attempted := some currentStr }
    if today ∈ data then
      Except.ok ([today], meta1)
    else do
      let latest ← getDefaultStartMonth data today
      Except.ok ([latest],
        { meta1 with current_month_fallback_used := some (ymStr latest) })
  else do
    let yearsNorm ← mapExcept (searchValidateYear today) (years.getD [])
    let monthsNorm ← mapExcept searchValidateMonth (months.getD [])
    let build : List YM × List String × Bool :=
      if monthsNorm ≠ [] ∧ yearsNorm = [] then
        (monthsNorm.filterMap (fun m =>
           if m > today.2 then none else some ((today.1, m) : YM)),
         monthsNorm.filterMap (fun m =>
           if m > today.2 then some (ymStr (today.1, m)) else none),
         true)
      else if monthsNorm ≠ [] ∧ yearsNorm ≠ [] then
        ((yearsNorm.map (fun y => monthsNorm.filterMap (fun m =>
            if y = today.1 ∧ m > today.2 then none else some ((y, m) : YM)))).flatten,
         (yearsNorm.map (fun y => monthsNorm.filterMap (fun m =>
            if y = today.1 ∧ m > today.2 then some (ymStr (y, m)) else none))).flatten,
         false)
      else if yearsNorm ≠ [] ∧ monthsNorm = [] then
        ((yearsNorm.map (fun y =>
            (intRange1 (if y = today.1 then today.2 else 12)).map
              (fun m => ((y, m) : YM)))).flatten,
         [], false)
      else ([], [], false)
    let periods := sortedDedupYM build.1
    let excluded := build.2.1
    let meta := { meta0 with
      assumed_current_year := build.2.2,
      excluded_future_periods := excluded }
    if periods = [] then
      if excluded ≠ [] then
        Except.error ⟨400, "All requested periods are in the future: "
          ++ String.intercalate ", " excluded⟩
      else
        Except.error ⟨404, "No valid (year, month) periods to query"⟩
    else
      Except.ok (periods, meta)

/-! ## `dashboard_service.get_client_dashboard_summary`: aggregation loop

A row is a tuple `(emp_id, client, department, client_partner, shift_type,
days, coalesce(amount, 0))`.  `SHIFT_TYPES` is the module-level cleaned
shift-key configuration (modelled from the spec as an abstract parameter:
`utils/shift_config.py` is not part of the sources, the spec describes it as
a dynamic set of keys). -/

structure DRow where
  emp_id : Option String
  client : Option String
  department : Option String
  client_partner : Option String
  shift_type : Option String
  days : Option ℚ
  amount : ℚ

def dShiftKey (r : DRow) : String := pyUpper (cleanStr r.shift_type)

/-- Python `clean_str(x) or default`. -/
def orDefault (s d : String) : String := if s = "" then d else s

def dClient (r : DRow) : String := orDefault (cleanStr r.client) "UNKNOWN"

def dDept (r : DRow) : String := orDefault (cleanStr r.department) "UNKNOWN"

def dCp (r : DRow) : String := orDefault (cleanStr r.client_partner) "Unassigned"

def dEid (r : DRow) : String := cleanStr r.emp_id

/-- `allowance = float(days or 0) * float(amt or 0)` (`amt` is already
coalesced to `0` by the SQL query). -/
def dAllowance (r : DRow) : ℚ := (r.days.getD 0) * r.amount

/-- The two `continue` guards: a nonempty configuration rejects unknown keys,
a present (necessarily nonempty) shift selection rejects unselected keys. -/
def dRowKept (st : List String) (sel : Option (List String)) (r : DRow) : Bool :=
  (st.isEmpty || decide (dShiftKey r ∈ st)) &&
  (match sel with
   | none => true
   | some s => decide (dShiftKey r ∈ s))

/-- A per-shift bucket `{"total": ..., "head_count": set()}`. -/
structure ShiftBucket where
  total : ℚ
  head_count : Finset String

def emptyBucket : ShiftBucket := ⟨0, ∅⟩

def bucketUpd (allowance : ℚ) (eid : String) (b : ShiftBucket) : ShiftBucket :=
  { total := b.total + allowance,
    head_count := if eid ≠ "" then insert eid b.head_count else b.head_count }

/-- `empty_node()` shape used for both client and client-partner nodes; the
partner nodes additionally grow a nested `clients` map. -/
structure DNode where
  total_allowance : ℚ
  head_count : Finset String
  dept_set : Finset String
  shifts : List (String × ShiftBucket)

structure PNode where
  total_allowance : ℚ
  head_count : Finset String
  dept_set : Finset String
  shifts : List (String × ShiftBucket)
  clients : List (String × DNode)

def emptyDNode (st : List String) : DNode :=
  { total_allowance := 0, head_count := ∅, dept_set := ∅,
    shifts := st.map (fun s => (s, emptyBucket)) }

def emptyPNode (st : List String) : PNode :=
  { total_allowance := 0, head_count := ∅, dept_set := ∅,
    shifts := st.map (fun s => (s, emptyBucket)), clients := [] }

def dnodeUpd (r : DRow) (n : DNode) : DNode :=
  { total_allowance := n.total_allowance + dAllowance r,
    head_count := if dEid r ≠ "" then insert (dEid r) n.head_count else n.head_count,
    dept_set := insert (dDept r) n.dept_set,
    shifts := bump n.shifts (dShiftKey r) emptyBucket (bucketUpd (dAllowance r) (dEid r)) }

def pnodeUpd (st : List String) (r : DRow) (n : PNode) : PNode :=
  { total_allowance := n.total_allowance + dAllowance r,
    head_count := if dEid r ≠ "" then insert (dEid r) n.head_count else n.head_count,
    dept_set := insert (dDept r) n.dept_set,
    shifts := bump n.shifts (dShiftKey r) emptyBucket (bucketUpd (dAllowance r) (dEid r)),
    clients := bump n.clients (dClient r) (emptyDNode st) (dnodeUpd r) }

structure DashState where
  total_allowance : ℚ
  head_count_set : Finset String
  clients : List (String × DNode)
  client_partner : List (String × PNode)
  seen_shifts : Finset String
  clients_set : Finset String
  depts_set : Finset String

def dashInit : DashState :=
  { total_allowance := 0, head_count_set := ∅, clients := [], client_partner := [],
    seen_shifts := ∅, clients_set := ∅, depts_set := ∅ }

def dashStep (st : List String) (sel : Option (List String))
    (s : DashState) (r : DRow) : DashState :=
  if dRowKept st sel r then
    { total_allowance := s.total_allowance + dAllowance r,
      head_count_set :=
        if dEid r ≠ "" then insert (dEid r) s.head_count_set else s.head_count_set,
      clients := bump s.clients (dClient r) (emptyDNode st) (dnodeUpd r),
      client_partner := bump s.client_partner (dCp r) (emptyPNode st) (pnodeUpd st r),
      seen_shifts :=
        if dShiftKey r ≠ "" then insert (dShiftKey r) s.seen_shifts else s.seen_shifts,
      clients_set := insert (dClient r) s.clients_set,
      depts_set := insert (dDept r) s.depts_set }
  else s

/-- The `for emp, client, dept, cp, shift, days, amt in rows` loop. -/
def dashAggregate (st : List String) (sel : Option (List String))
    (rows : List DRow) : DashState :=
  rows.foldl (dashStep st sel) dashInit

/-- `finalize`: `node["head_count"] = len(head_count_set)` for a client or
partner node of the summary (the full `finalize` also normalises the shift
buckets and department count; head counts are what the claims are about). -/
def dNodeHeadCount (n : DNode) : Nat := n.head_count.card

def pNodeHeadCount (n : PNode) : Nat := n.head_count.card

/-! ## `dashboard_service.apply_sort_dict` -/

/-- `apply_sort_dict(data, sort_by, sort_order)` over an ordered dict of
nodes; `getNum v f` models the numeric `v.get(sort_by, 0) or 0`. -/
def applySortDict {V : Type} (getNum : V → String → ℚ)
    (data : List (String × V)) (sort_by sort_order : String) :
    List (String × V) :=
  if sort_order = "default" ∨ sort_by = "" then data
  else
    let rev := sort_order = "desc"
    if sort_by = "client" ∨ sort_by = "client_partner" then
      if rev then
        List.insertionSort (fun a b : String × V => pyLower b.1 ≤ pyLower a.1) data
      else
        List.insertionSort (fun a b : String × V => pyLower a.1 ≤ pyLower b.1) data
    else
      if rev then
        List.insertionSort
          (fun a b : String × V => getNum b.2 sort_by ≤ getNum a.2 sort_by) data
      else
        List.insertionSort
          (fun a b : String × V => getNum a.2 sort_by ≤ getNum b.2 sort_by) data

/-! ## `client_comparision_service`: employee-id fallback, headcount rules,
`get_client_total_allowances` -/

/-- Raw `ShiftAllowances` row with its `shift_mappings` relationship
(`(shift_type, days)` pairs). -/
structure CRow where
  emp_id : Option String
  emp_name : Option String
  department : Option String
  client : Option String
  client_partner : Option String
  shift_mappings : List (Option String × Option ℚ)

/-- `_extract_employee_id`: a truthy id wins (stripped); otherwise a composite
`name|dept|client` identity is synthesised when any of the three parts is
nonempty; otherwise `None`. -/
def extractEmployeeId (r : CRow) : Option String :=
  let emp := r.emp_id
  if h : emp.isSome ∧ emp.getD "" ≠ "" then
    some (pyStrip (emp.getD ""))
  else
    let name := pyStrip (r.emp_name.getD "")
    let dept := pyStrip (r.department.getD "")
    let client := pyStrip (r.client.getD "")
    if name ≠ "" ∨ dept ≠ "" ∨ client ≠ "" then
      some (name ++ "|" ++ dept ++ "|" ++ client)
    else none

/-- Headcount rules of the second (operative) `_parse_headcount_filter`:
note it accepts an `"N+"` suffix as an open range and silently drops
malformed items. -/
inductive HRule where
  | range (lo hi : Int)
  | eq (n : Int)
deriving DecidableEq, Repr

/-- The second (operative) `_headcount_matches`. -/
def headcountMatches (value : Option Int) (rules : Option (List HRule)) : Bool :=
  match rules with
  | none => true
  | some rs =>
    match value with
    | none => false
    | some v =>
      rs.any (fun rule =>
        match rule with
        | .range lo hi => decide (lo ≤ v) && decide (v ≤ hi)
        | .eq n => decide (v = n))

/-- `rates = {str(r.shift_type).upper(): Decimal(r.amount or 0)}`: later
entries overwrite earlier ones. -/
def buildRates (rateRows : List (Option String × Option ℚ)) : List (String × ℚ) :=
  rateRows.foldl
    (fun acc p =>
      let amt := p.2.getD 0
      bump acc (pyUpper (p.1.getD "")) amt (fun _ => amt)) []

/-- `rates.get(shift_key, Decimal(0))`. -/
def rateLookup (rates : List (String × ℚ)) (k : String) : ℚ := (alookup rates k).getD 0

structure CDeptRec where
  total : ℚ
  shifts : List (String × ℚ)
  emp_ids : Finset String

def emptyCDeptRec : CDeptRec := ⟨0, [], ∅⟩

/-- Accumulators of `get_client_total_allowances` (`defaultdict`s). -/
structure CTState where
  client_totals : List (String × ℚ)
  client_emps : List (String × Finset String)
  client_shifts : List (String × List (String × ℚ))
  client_depts : List (String × List (String × CDeptRec))

def ctInit : CTState := ⟨[], [], [], []⟩

/-- One `for mapping in row.shift_mappings` iteration of
`get_client_total_allowances`: a mapping only contributes when `days > 0`,
its shift passes the filter, and the computed `amount = days * rate` is
positive. -/
def ctMapStep (rates : List (String × ℚ)) (allowed : Option (List String))
    (client dept : String) (acc : CTState × Bool)
    (mp : Option String × Option ℚ) : CTState × Bool :=
  let shiftKey := pyUpper (mp.1.getD "")
  let days := mp.2.getD 0
  if days ≤ 0 then acc
  else if (match allowed with
           | some al => decide (shiftKey ∉ al)
           | none => false) then acc
  else
    let rate := rateLookup rates shiftKey
    let amount := days * rate
    if amount ≤ 0 then acc
    else
      ({ acc.1 with
         client_totals := bump acc.1.client_totals client 0 (· + amount),
         client_shifts := bump acc.1.client_shifts client []
           (fun m => bump m shiftKey 0 (· + amount)),
         client_depts := bump acc.1.client_depts client []
           (fun dm => bump dm dept emptyCDeptRec
             (fun rec0 =>
               { rec0 with
                 total := rec0.total + amount,
                 shifts := bump rec0.shifts shiftKey 0 (· + amount) })) },
       true)

/-- One row of the `get_client_total_allowances` loop; the employee is added
to the headcount sets only if some mapping of the row contributed. -/
def ctRowStep (rates : List (String × ℚ)) (allowed : Option (List String))
    (st : CTState) (row : CRow) : CTState :=
  let client := orDefault (row.client.getD "") "Unknown"
  let dept := orDefault (row.department.getD "") "Unknown"
  let emp : Option String :=
    match row.emp_id with
    | some e => if e ≠ "" then some e else none
    | none => none
  let folded := row.shift_mappings.foldl (ctMapStep rates allowed client dept) (st, false)
  let st1 := folded.1
  match emp with
  | some e =>
    if folded.2 then
      { st1 with
        client_emps := bump st1.client_emps client ∅ (insert e),
        client_depts := bump st1.client_depts client []
          (fun dm => bump dm dept emptyCDeptRec
            (fun rec0 => { rec0 with emp_ids := insert e rec0.emp_ids })) }
    else st1
  | none => st1

structure CTDeptOut where
  department : String
  headcount : Nat
  total_allowance : ℚ
  shifts : List (String × ℚ)
deriving DecidableEq, Repr

structure CTOut where
  client : String
  headcount : Nat
  total_allowance : ℚ
  shifts : List (String × ℚ)
  departments : List CTDeptOut
deriving DecidableEq, Repr

/-- The result-assembly loop of `get_client_total_allowances`: iterate over
`client_totals`, apply the headcount filter, emit per-client records keeping
only positive shift totals and positive-total departments. -/
def ctAssemble (st : CTState) (rules : Option (List HRule)) : List CTOut :=
  st.client_totals.filterMap (fun p =>
    let client := p.1
    let total := p.2
    let headcount := ((alookup st.client_emps client).getD ∅).card
    if headcountMatches (some (headcount : Int)) rules then
      some
        { client := client,
          headcount := headcount,
          total_allowance := total,
          shifts := ((alookup st.client_shifts client).getD []).filter
            (fun q => 0 < q.2),
          departments := ((alookup st.client_depts client).getD []).filterMap
            (fun q =>
              if 0 < q.2.total then
                some { department := q.1,
                       headcount := q.2.emp_ids.card,
                       total_allowance := q.2.total,
                       shifts := q.2.shifts.filter (fun sv => 0 < sv.2) }
              else none) }
    else none)

/-- `get_client_total_allowances` after the rows are fetched: the aggregation
loop, the headcount filter, assembly, the sort, and the `top` truncation. -/
def getClientTotalAllowancesCore (rates : List (String × ℚ))
    (allowed : Option (List String)) (rules : Option (List HRule))
    (sortBy : String) (sortOrder : String) (top : Option String)
    (rows : List CRow) : Except HErr (List CTOut) := do
  let st := rows.foldl (ctRowStep rates allowed) ctInit
  let result := ctAssemble st rules
  let validKeys := ["client", "client_partner", "departments", "headcount", "total_allowance"]
  if sortBy ∉ validKeys then
    Except.error ⟨400, "sort_by must be one of client, client_partner, departments, headcount, total_allowance"⟩
  else
    let rev := pyLower sortOrder = "desc"
    let sorted :=
      if sortBy = "departments" then
        let keyf : CTOut → ℚ := fun x => (x.departments.map CTDeptOut.total_allowance).sum
        if rev then List.insertionSort (fun a b => keyf b ≤ keyf a) result
        else List.insertionSort (fun a b => keyf a ≤ keyf b) result
      else if sortBy = "headcount" then
        let keyf : CTOut → Nat := fun x => x.headcount
        if rev then List.insertionSort (fun a b => keyf b ≤ keyf a) result
        else List.insertionSort (fun a b => keyf a ≤ keyf b) result
      else if sortBy = "total_allowance" then
        let keyf : CTOut → ℚ := fun x => x.total_allowance
        if rev then List.insertionSort (fun a b => keyf b ≤ keyf a) result
        else List.insertionSort (fun a b => keyf a ≤ keyf b) result
      else
        let keyf : CTOut → String :=
          fun x => if sortBy = "client_partner" then "" else x.client
        if rev then List.insertionSort (fun a b => keyf b ≤ keyf a) result
        else List.insertionSort (fun a b => keyf a ≤ keyf b) result
    match top with
    | none => Except.ok sorted
    | some t =>
      if pyLower t = "all" then Except.ok sorted
      else if pyIsDigit t.data ∧ 0 < pyIntOfDigits t.data then
        Except.ok (sorted.take (pyIntOfDigits t.data))
      else Except.error ⟨400, "top must be a positive integer or ALL"⟩

/-- The headcount-format validation block of `get_client_dashboard`
(`client_comparision_service.py`, applied when `filters.headcounts` is not
`None`/`"ALL"`/`[0]`): any `'+'` is rejected outright; a dashed item must
split into exactly two digit parts with `start <= end`; otherwise the item
must be all digits. -/
def validateDashboardHeadcounts (values : List String) : Except HErr Unit :=
  match values with
  | [] => Except.ok ()
  | item :: t =>
    let s := pyStrip item
    if ('+' : Char) ∈ s.data then
      Except.error ⟨400, "Invalid headcount format: " ++ item ++ ". Use format like 1-10."⟩
    else if ('-' : Char) ∈ s.data then
      match splitOnChar '-' s.data with
      | [a, b] =>
        if pyIsDigit a && pyIsDigit b then
          if pyIntOfDigits a > pyIntOfDigits b then
            Except.error ⟨400, "Invalid headcount range (start > end): " ++ item⟩
          else validateDashboardHeadcounts t
        else
          Except.error ⟨400, "Invalid headcount range: " ++ item ++ ". Use format like 1-10."⟩
      | _ =>
        Except.error ⟨400, "Invalid headcount range: " ++ item ++ ". Use format like 1-10."⟩
    else if pyIsDigit s.data then validateDashboardHeadcounts t
    else Except.error ⟨400, "Invalid headcount format: " ++ item ++ ". Use 5 or 1-10."⟩

/-! ## `client_summary_service`: entry point with response cache

Payload fields can be a bare string or a list of strings (`SLVal`), mirroring
the `isinstance` dispatch in the source. -/

inductive SLVal where
  | s (v : String)
  | l (v : List String)
deriving DecidableEq, Repr

/-- Python truthiness of a payload field (`if emp_id:` etc.). -/
def slTruthy : Option SLVal → Bool
  | none => false
  | some (.s v) => v ≠ ""
  | some (.l v) => !v.isEmpty

def splitComma (s : String) : List String :=
  (splitOnChar ',' s.data).map (fun l => ⟨l⟩)

/-- `clients_list` extraction (CSV string or list; `"ALL"` → no constraint). -/
def clientsListOf (v : SLVal) : List String :=
  match v with
  | .s raw =>
    if raw = "ALL" then []
    else ((splitComma raw).map pyStrip).filter (fun c => c ≠ "")
  | .l raw => (raw.filter (fun c => c ≠ "")).map pyStrip

/-- `departments_list` extraction (note: the string branch does not split on
commas — it yields a single stripped name). -/
def departmentsListOf (v : SLVal) : List String :=
  match v with
  | .s raw => if raw = "ALL" then [] else [pyStrip raw]
  | .l raw => (raw.filter (fun d => d ≠ "")).map pyStrip

/-- `ids = emp_id if isinstance(emp_id, list) else [emp_id]` then
`clean_str(e).lower()`. -/
def empIdLowerList : SLVal → List String
  | .s v => [pyLower (cleanStr (some v))]
  | .l v => v.map (fun e => pyLower (cleanStr (some e)))

/-- `client_partner` LIKE parts: cleaned, empties dropped. -/
def partnerParts : SLVal → List String
  | .s v => ([cleanStr (some v)]).filter (fun p => p ≠ "")
  | .l v => (v.map (fun p => cleanStr (some p))).filter (fun p => p ≠ "")

structure SPayload where
  years : List Int := []
  months : List Int := []
  clients : Option SLVal := none
  departments : Option SLVal := none
  emp_id : Option SLVal := none
  client_partner : Option SLVal := none
  shifts : Option SLVal := none
  headcounts : Option HPayload := none
  sort_by : Option String := none
  sort_order : Option String := none

/-- `CLIENT_SUMMARY_VERSION`. -/
def clientSummaryVersion : String := "v4"

/-- The information content of the response cache key
`f"client_summary_latest:{VERSION}:{str(parts)}:response"`: the version
constant plus the raw payload filter/sort fields, with the literal `.get`
defaults.  Neither the resolved (latest) period nor the shift-key
configuration enters the key. -/
structure CacheKey where
  version : String
  clients : SLVal
  departments : SLVal
  emp_id : Option SLVal
  client_partner : Option SLVal
  shifts : SLVal
  headcounts : HPayload
  sort_by : String
  sort_order : String
deriving DecidableEq

def responseCacheKey (p : SPayload) : CacheKey :=
  { version := clientSummaryVersion,
    clients := p.clients.getD (.s "ALL"),
    departments := p.departments.getD (.s "ALL"),
    emp_id := p.emp_id,
    client_partner := p.client_partner,
    shifts := p.shifts.getD (.s "ALL"),
    headcounts := p.headcounts.getD .all,
    sort_by := p.sort_by.getD "client_total",
    sort_order := p.sort_order.getD "desc" }

/-- SQL `lower(col) LIKE '%part%'` (substring match). -/
def likeContains (hay needle : String) : Bool := decide (List.IsInfix needle.data hay.data)

/-- The WHERE clauses shared by `resolve_target_months`'s latest-month probe
and the main query (client/department/emp/partner filters on the raw
columns). -/
def rowPassesFilters (clientsL departmentsL : List String)
    (empId cp : Option SLVal) (r : SRow) : Bool :=
  (clientsL.isEmpty || decide (pyLower (r.client.getD "") ∈ clientsL.map pyLower)) &&
  (departmentsL.isEmpty ||
    decide (pyLower (r.department.getD "") ∈ departmentsL.map pyLower)) &&
  (!slTruthy empId ||
    decide (pyLower (r.emp_id.getD "") ∈ empIdLowerList (empId.getD (.s "")))) &&
  (!slTruthy cp ||
    (let parts := partnerParts (cp.getD (.s ""))
     parts.isEmpty ||
       parts.any (fun p => likeContains (pyLower (r.client_partner.getD "")) (pyLower p))))

/-- SQL `upper(ShiftMapping.shift_type) IN allowed` (raw upper, `NULL` never
matches). -/
def rowShiftAllowed (allowed : List String) (r : SRow) : Bool :=
  match r.shift_type with
  | none => false
  | some s => decide (pyUpper s ∈ allowed)

/-- `resolve_target_months`: explicit selections expand to their cartesian
products; otherwise only the single latest month with data under the active
filters (no window restriction). -/
def resolveTargetMonths (db : List SRow) (today : YM) (p : SPayload)
    (clientsL departmentsL : List String) (empId cp : Option SLVal)
    (allowed : List String) : List YM :=
  if p.years ≠ [] ∨ p.months ≠ [] then
    let years := if p.years ≠ [] then sortedDedupInt p.years else []
    let months := if p.months ≠ [] then sortedDedupInt p.months else []
    if years ≠ [] ∧ months ≠ [] then
      (years.map (fun y => months.map (fun m => ((y, m) : YM)))).flatten
    else if years ≠ [] then
      (years.map (fun y => (intRange1 12).map (fun m => ((y, m) : YM)))).flatten
    else
      months.map (fun m => ((today.1, m) : YM))
  else
    let candidates := (db.filter (fun r =>
      (allowed.isEmpty || rowShiftAllowed allowed r) &&
      rowPassesFilters clientsL departmentsL empId cp r)).map SRow.duration_month
    match latestYM candidates with
    | some d => [d]
    | none => []

/-- The service result: the early "no data" meta response or the aggregated
months. -/
inductive SummaryOut where
  | noData (message : String)
  | months (out : List ((Int × Int) × MonthOut))

/-- `client_summary_service(db, payload)` with the response cache modelled as
a lookup function.  Returns the response; the trailing `cache.set` does not
change the returned value. -/
def clientSummaryService (shiftKeysRaw : List String) (db : List SRow)
    (today : YM) (payload : SPayload)
    (cache : CacheKey → Option (List ((Int × Int) × MonthOut))) :
    Except HErr SummaryOut := do
  let shift_keys := shiftKeysRaw.map (fun k => pyUpper (cleanStr (some k)))
  let clientsL := clientsListOf (payload.clients.getD (.s "ALL"))
  let departmentsL := departmentsListOf (payload.departments.getD (.s "ALL"))
  let empId := payload.emp_id
  let cp := payload.client_partner
  let shiftsRaw := payload.shifts.getD (.s "ALL")
  let allowed ←
    if h : shiftsRaw = .s "ALL" then pure shift_keys
    else do
      let sel := match shiftsRaw with
        | .s v => [v]
        | .l v => v
      let selUpper := sel.map (fun s => pyUpper (cleanStr (some s)))
      let invalid := selUpper.filter (fun s => s ∉ shift_keys)
      if invalid ≠ [] then
        Except.error ⟨400, "Invalid shift(s): " ++ String.intercalate ", " invalid⟩
      else pure selUpper
  let ranges ← parseHeadcountRanges (payload.headcounts.getD .all)
  let monthsToUse := resolveTargetMonths db today payload clientsL departmentsL empId cp allowed
  if monthsToUse = [] then
    Except.ok (.noData "No data found for the selected filters.")
  else
    let latestStyle := payload.years = [] ∧ payload.months = []
    let cached : Option (List ((Int × Int) × MonthOut)) :=
      if latestStyle then cache (responseCacheKey payload) else none
    match cached with
    | some resp =>
      if resp.isEmpty then
        Except.ok (.months (clientSummaryRun shift_keys db payload clientsL
          departmentsL empId cp allowed ranges monthsToUse))
      else Except.ok (.months resp)
    | none =>
      Except.ok (.months (clientSummaryRun shift_keys db payload clientsL
        departmentsL empId cp allowed ranges monthsToUse))
where
  /-- The query + aggregation path (steps after the cache probe). -/
  clientSummaryRun (shift_keys : List String) (db : List SRow) (payload : SPayload)
      (clientsL departmentsL : List String) (empId cp : Option SLVal)
      (allowed : List String) (ranges : Option (List (Nat × Nat)))
      (monthsToUse : List YM) : List ((Int × Int) × MonthOut) :=
    let rows := db.filter (fun r =>
      rowPassesFilters clientsL departmentsL empId cp r &&
      (allowed.isEmpty || rowShiftAllowed allowed r) &&
      decide (r.duration_month ∈ monthsToUse))
    clientSummaryPipeline shift_keys ranges (payload.sort_by.getD "client_total")
      (pyLower (payload.sort_order.getD "desc")) rows

/-! ## Row-scope selectors used by the characterisation theorems -/

/-- Rows of one reporting month. -/
def monthRowsOf (rows : List SRow) (ym : Int × Int) : List SRow :=
  rows.filter (fun r => r.duration_month = ym)

/-- Rows of one month whose shift key is configured (the rows the loop does
not skip). -/
def qualRowsOf (keys : List String) (rows : List SRow) (ym : Int × Int) : List SRow :=
  (monthRowsOf rows ym).filter (fun r => shiftKeyOf r ∈ keys)

/-- The rows in a client node's scope. -/
def clientRowsOf (keys : List String) (rows : List SRow) (ym : Int × Int)
    (c : String) : List SRow :=
  (qualRowsOf keys rows ym).filter (fun r => clientNameOf r = c)

/-- The rows in a department node's scope. -/
def deptRowsOf (keys : List String) (rows : List SRow) (ym : Int × Int)
    (c d : String) : List SRow :=
  (clientRowsOf keys rows ym c).filter (fun r => deptNameOf r = d)

/-- The rows in a client-partner node's scope (dashboard summary). -/
def cpRowsOf (st : List String) (sel : Option (List String)) (rows : List DRow)
    (cp : String) : List DRow :=
  (rows.filter (fun r => dRowKept st sel r)).filter (fun r => dCp r = cp)

/-! ## Characterisation of the `client_summary_service` aggregation -/

/-- Folding the per-client update recomputes a department map from the
`departments` field onward. -/
theorem clientFold_departments (cs : List SRow) (c0 : ClientAgg) :
    (cs.foldl (fun a r => clientUpd r a) c0).departments =
      cs.foldl (fun dm r => bump dm (deptNameOf r) deptInit (deptUpd r)) c0.departments := by
  induction cs generalizing c0 with
  | nil => rfl
  | cons r rs ih => simp only [List.foldl_cons]; rw [ih]; rfl

theorem clientFold_name (cs : List SRow) (c0 : ClientAgg) :
    (cs.foldl (fun a r => clientUpd r a) c0).client_name = c0.client_name := by
  induction cs generalizing c0 with
  | nil => rfl
  | cons r rs ih => simp only [List.foldl_cons]; rw [ih]; rfl

theorem deptFold_total (ds : List SRow) (d0 : DeptAgg) :
    (ds.foldl (fun a r => deptUpd r a) d0).dept_total =
      d0.dept_total + (ds.map rowValue).sum := by
  induction ds generalizing d0 with
  | nil => simp
  | cons r rs ih =>
    simp only [List.foldl_cons, List.map_cons, List.sum_cons]
    rw [ih]
    show d0.dept_total + rowValue r + _ = _
    ring

theorem deptFold_shift (ds : List SRow) (d0 : DeptAgg) (k : String) :
    (ds.foldl (fun a r => deptUpd r a) d0).shift k =
      d0.shift k + ((ds.filter (fun r => shiftKeyOf r = k)).map rowValue).sum := by
  have hproj : (ds.foldl (fun a r => deptUpd r a) d0).shift =
      ds.foldl (fun t r => Function.update t (shiftKeyOf r) (t (shiftKeyOf r) + rowValue r))
        d0.shift := by
    induction ds generalizing d0 with
    | nil => rfl
    | cons r rs ih => simp only [List.foldl_cons]; rw [ih]; rfl
  rw [hproj, foldl_update_apply]

theorem deptFold_empMap (ds : List SRow) (d0 : DeptAgg) :
    (ds.foldl (fun a r => deptUpd r a) d0).emp_map =
      ds.foldl (fun m r => bump m (eidOf r) (empInit r) (empUpd r)) d0.emp_map := by
  induction ds generalizing d0 with
  | nil => rfl
  | cons r rs ih => simp only [List.foldl_cons]; rw [ih]; rfl

theorem empFold_total (es : List SRow) (e0 : EmpAgg) :
    (es.foldl (fun a r => empUpd r a) e0).total = e0.total + (es.map rowValue).sum := by
  induction es generalizing e0 with
  | nil => simp
  | cons r rs ih =>
    simp only [List.foldl_cons, List.map_cons, List.sum_cons]
    rw [ih]
    show e0.total + rowValue r + _ = _
    ring

theorem empFold_shift (es : List SRow) (e0 : EmpAgg) (k : String) :
    (es.foldl (fun a r => empUpd r a) e0).shift k =
      e0.shift k + ((es.filter (fun r => shiftKeyOf r = k)).map rowValue).sum := by
  have hproj : (es.foldl (fun a r => empUpd r a) e0).shift =
      es.foldl (fun t r => Function.update t (shiftKeyOf r) (t (shiftKeyOf r) + rowValue r))
        e0.shift := by
    induction es generalizing e0 with
    | nil => rfl
    | cons r rs ih => simp only [List.foldl_cons]; rw [ih]; rfl
  rw [hproj, foldl_update_apply]

theorem empFold_id (es : List SRow) (e0 : EmpAgg) :
    (es.foldl (fun a r => empUpd r a) e0).emp_id = e0.emp_id := by
  induction es generalizing e0 with
  | nil => rfl
  | cons r rs ih => simp only [List.foldl_cons]; rw [ih]; rfl

/-- Entry of the aggregated month dict: exactly the fold of the loop body
over that month's rows (`none` when the month never occurs). -/
theorem alookup_aggregate (keys : List String) (rows : List SRow) (ym : Int × Int) :
    alookup (aggregate keys rows) ym =
      match monthRowsOf rows ym with
      | [] => none
      | _ :: _ =>
        some ((monthRowsOf rows ym).foldl (fun m r => monthUpd keys r m) monthInit) := by
  unfold aggregate monthRowsOf
  rw [alookup_foldl_bump_nil (fun r : SRow => r.duration_month) (fun _ => monthInit)
    (fun r => monthUpd keys r) rows ym]
  cases h : rows.filter (fun r => r.duration_month = ym) with
  | nil => rfl
  | cons r rs => simp only [List.foldl_cons]

/-- The clients map of a month accumulator: the grouping fold over the
non-skipped rows. -/
theorem monthFold_clients (keys : List String) (ms : List SRow) (m0 : MonthAgg) :
    (ms.foldl (fun m r => monthUpd keys r m) m0).clients =
      (ms.filter (fun r => shiftKeyOf r ∈ keys)).foldl
        (fun cl r => bump cl (clientNameOf r) (clientInit r) (clientUpd r)) m0.clients := by
  rw [foldl_filter_eq (fun r => shiftKeyOf r ∈ keys)]
  induction ms generalizing m0 with
  | nil => rfl
  | cons r rs ih =>
    simp only [List.foldl_cons]
    rw [ih]
    by_cases h : shiftKeyOf r ∈ keys
    · simp only [monthUpd, if_pos h]
    · simp only [monthUpd, if_neg h]

/-- Entry of the per-month clients dict. -/
theorem alookup_clientsMap (qs : List SRow) (c : String) :
    alookup (qs.foldl (fun cl r => bump cl (clientNameOf r) (clientInit r) (clientUpd r)) []) c =
      match qs.filter (fun r => clientNameOf r = c) with
      | [] => none
      | r :: rs => some (rs.foldl (fun a r => clientUpd r a) (clientUpd r (clientInit r))) := by
  rw [alookup_foldl_bump clientNameOf clientInit clientUpd qs [] c]
  show qs.foldl
    (fun o r => if clientNameOf r = c then some (clientUpd r (o.getD (clientInit r))) else o)
    none = _
  rw [← foldl_filter_eq (fun r => clientNameOf r = c)
    (fun o r => some (clientUpd r (o.getD (clientInit r)))) qs none]
  cases h : qs.filter (fun r => clientNameOf r = c) with
  | nil => rfl
  | cons r rs => simp [optFoldl_some]

/-- Entry of a client's departments dict: the department accumulator is the
plain fold of `deptUpd` over the department's rows from the zero template. -/
theorem alookup_deptMap (cs : List SRow) (d : String) :
    alookup (cs.foldl (fun dm r => bump dm (deptNameOf r) deptInit (deptUpd r)) []) d =
      match cs.filter (fun r => deptNameOf r = d) with
      | [] => none
      | ds => some (ds.foldl (fun a r => deptUpd r a) deptInit) := by
  rw [alookup_foldl_bump_nil deptNameOf (fun _ => deptInit) deptUpd cs d]
  cases h : cs.filter (fun r => deptNameOf r = d) with
  | nil => rfl
  | cons r rs => simp only [List.foldl_cons]

/-- Entry of a department's `_emp_map`. -/
theorem alookup_empMap (ds : List SRow) (eid : String) :
    alookup (ds.foldl (fun m r => bump m (eidOf r) (empInit r) (empUpd r)) []) eid =
      match ds.filter (fun r => eidOf r = eid) with
      | [] => none
      | r :: rs => some ((r :: rs).foldl (fun a r => empUpd r a) (empInit r)) := by
  rw [alookup_foldl_bump_nil eidOf empInit empUpd ds eid]
  cases h : ds.filter (fun r => eidOf r = eid) with
  | nil => rfl
  | cons r rs => simp only [List.foldl_cons]

/-! ### Entry-level characterisations -/

theorem alookup_of_mem_nodup {K A : Type} [DecidableEq K] (l : List (K × A))
    (h : (akeys l).Nodup) {p : K × A} (hp : p ∈ l) : alookup l p.1 = some p.2 := by
  induction l with
  | nil => cases hp
  | cons hd t ih =>
    obtain ⟨k0, v⟩ := hd
    rcases List.mem_cons.mp hp with heq | hmem
    · subst heq
      simp [alookup]
    · have hk : p.1 ∈ akeys t := List.mem_map_of_mem Prod.fst hmem
      have h0 : k0 ≠ p.1 := by
        intro he
        exact (List.nodup_cons.mp h).1 (he ▸ hk)
      simp only [alookup, if_neg h0]
      exact ih (List.nodup_cons.mp h).2 hmem

theorem mem_of_alookup {K A : Type} [DecidableEq K] (l : List (K × A)) (k : K) (v : A)
    (h : alookup l k = some v) : (k, v) ∈ l := by
  induction l with
  | nil => simp [alookup] at h
  | cons hd t ih =>
    obtain ⟨k0, v0⟩ := hd
    by_cases h0 : k0 = k
    · subst h0
      simp [alookup] at h
      subst h
      exact List.mem_cons_self _ _
    · simp only [alookup, if_neg h0] at h
      exact List.mem_cons_of_mem _ (ih h)

/-- Recomputation shorthands for the characterisation statements. -/
def empMapOf (ds : List SRow) : List (String × EmpAgg) :=
  ds.foldl (fun m r => bump m (eidOf r) (empInit r) (empUpd r)) []

def deptAggOf (ds : List SRow) : DeptAgg :=
  ds.foldl (fun a r => deptUpd r a) deptInit

def deptMapOf (cs : List SRow) : List (String × DeptAgg) :=
  cs.foldl (fun dm r => bump dm (deptNameOf r) deptInit (deptUpd r)) []

theorem deptAggOf_empMap (ds : List SRow) : (deptAggOf ds).emp_map = empMapOf ds := by
  unfold deptAggOf empMapOf
  rw [deptFold_empMap]
  rfl

/-- `dept_head_count` is the number of distinct (cleaned) employee ids among
the department's rows — never the number of rows. -/
theorem empMapOf_length (ds : List SRow) :
    (empMapOf ds).length = ((ds.map eidOf).toFinset).card := by
  have h1 : akeys (empMapOf ds) = seenKeys eidOf ds [] :=
    akeys_foldl_bump eidOf empInit empUpd ds []
  have h2 : (empMapOf ds).length = (akeys (empMapOf ds)).length :=
    (List.length_map _ _).symm
  rw [h2, h1, length_seenKeys_nil]

theorem mem_akeys_empMapOf (ds : List SRow) (x : String) :
    x ∈ akeys (empMapOf ds) ↔ x ∈ ds.map eidOf := by
  unfold empMapOf
  rw [akeys_foldl_bump eidOf empInit empUpd ds []]
  show x ∈ seenKeys eidOf ds [] ↔ _
  rw [mem_seenKeys]
  simp

theorem akeys_empMapOf_nodup (ds : List SRow) : (akeys (empMapOf ds)).Nodup := by
  unfold empMapOf
  rw [akeys_foldl_bump eidOf empInit empUpd ds []]
  exact seenKeys_nodup eidOf ds [] List.nodup_nil

theorem empMapOf_entry_id (ds : List SRow) :
    ∀ p ∈ empMapOf ds, p.2.emp_id = p.1 := by
  intro p hp
  have hl := alookup_of_mem_nodup (empMapOf ds) (akeys_empMapOf_nodup ds) hp
  have hchar := alookup_empMap ds p.1
  unfold empMapOf at hl
  rw [hl] at hchar
  cases hfil : ds.filter (fun r => eidOf r = p.1) with
  | nil => rw [hfil] at hchar; cases hchar
  | cons r rs =>
    rw [hfil] at hchar
    have hr : eidOf r = p.1 := by
      have : r ∈ ds.filter (fun r => eidOf r = p.1) := hfil ▸ List.mem_cons_self r rs
      simpa using (List.mem_filter.mp this).2
    have he : p.2 = (r :: rs).foldl (fun a r => empUpd r a) (empInit r) :=
      Option.some.inj hchar
    calc p.2.emp_id
        = ((r :: rs).foldl (fun a r => empUpd r a) (empInit r)).emp_id := by rw [← he]
      _ = (empInit r).emp_id := empFold_id _ _
      _ = p.1 := hr

theorem akeys_deptMapOf_nodup (cs : List SRow) : (akeys (deptMapOf cs)).Nodup := by
  unfold deptMapOf
  rw [akeys_foldl_bump deptNameOf (fun _ => deptInit) deptUpd cs []]
  exact seenKeys_nodup deptNameOf cs [] List.nodup_nil

theorem mem_akeys_deptMapOf (cs : List SRow) (x : String) :
    x ∈ akeys (deptMapOf cs) ↔ x ∈ cs.map deptNameOf := by
  unfold deptMapOf
  rw [akeys_foldl_bump deptNameOf (fun _ => deptInit) deptUpd cs []]
  show x ∈ seenKeys deptNameOf cs [] ↔ _
  rw [mem_seenKeys]
  simp

theorem deptMapOf_entry_char (cs : List SRow) :
    ∀ p ∈ deptMapOf cs, p.2 = deptAggOf (cs.filter (fun r => deptNameOf r = p.1)) := by
  intro p hp
  have hl := alookup_of_mem_nodup (deptMapOf cs) (akeys_deptMapOf_nodup cs) hp
  have hchar := alookup_deptMap cs p.1
  unfold deptMapOf at hl
  rw [hl] at hchar
  cases hfil : cs.filter (fun r => deptNameOf r = p.1) with
  | nil => rw [hfil] at hchar; cases hchar
  | cons r rs =>
    rw [hfil] at hchar
    exact Option.some.inj hchar

theorem mem_clientUniqueIds (depts : List (String × DeptOut)) (x : String) :
    x ∈ clientUniqueIds depts ↔
      x ≠ "" ∧ ∃ p ∈ depts, ∃ e ∈ p.2.employees, e.emp_id = x := by
  simp only [clientUniqueIds, List.mem_toFinset, List.mem_filter, List.mem_map,
    List.mem_flatten, decide_eq_true_eq]
  constructor
  · rintro ⟨⟨e, ⟨l, ⟨⟨dout, ⟨⟨p, hp, rfl⟩, rfl⟩⟩, he⟩⟩, hid⟩, hne⟩
    exact ⟨hne, p, hp, e, he, hid⟩
  · rintro ⟨hne, p, hp, e, he, hid⟩
    exact ⟨⟨e, ⟨p.2.employees, ⟨⟨p.2, ⟨⟨p, hp, rfl⟩, rfl⟩⟩, he⟩⟩, hid⟩, hne⟩

/-- The client-level `unique_emp_ids` set over the finalised departments is
exactly the set of nonempty cleaned employee ids of the client's rows. -/
theorem clientUniqueIds_char (cs : List SRow) :
    clientUniqueIds ((deptMapOf cs).map (fun p => (p.1, finalizeDept p.2))) =
      ((cs.map eidOf).filter (fun e => e ≠ "")).toFinset := by
  ext x
  rw [mem_clientUniqueIds, List.mem_toFinset, List.mem_filter]
  simp only [decide_eq_true_eq]
  constructor
  · rintro ⟨hne, p, hp, e, he, hid⟩
    refine ⟨?_, hne⟩
    obtain ⟨p0, hp0, rfl⟩ := List.mem_map.mp hp
    have hchar := deptMapOf_entry_char cs p0 hp0
    have hemp : p0.2.emp_map = empMapOf (cs.filter (fun r => deptNameOf r = p0.1)) := by
      rw [hchar, deptAggOf_empMap]
    have he2 : e ∈ avals p0.2.emp_map := he
    obtain ⟨q, hq, rfl⟩ := List.mem_map.mp he2
    have hqid : q.2.emp_id = q.1 := by
      rw [hemp] at hq
      exact empMapOf_entry_id _ q hq
    have hxkeys : x ∈ akeys p0.2.emp_map := by
      rw [← hid, hqid]
      exact List.mem_map_of_mem Prod.fst hq
    rw [hemp, mem_akeys_empMapOf] at hxkeys
    obtain ⟨r, hr, hrx⟩ := List.mem_map.mp hxkeys
    exact List.mem_map.mpr ⟨r, (List.mem_filter.mp hr).1, hrx⟩
  · rintro ⟨hmem, hne⟩
    obtain ⟨r, hr, hrx⟩ := List.mem_map.mp hmem
    refine ⟨hne, ?_⟩
    have hdn : deptNameOf r ∈ akeys (deptMapOf cs) := by
      rw [mem_akeys_deptMapOf]
      exact List.mem_map_of_mem deptNameOf hr
    obtain ⟨p0, hp0, hfst⟩ := List.mem_map.mp hdn
    have hchar := deptMapOf_entry_char cs p0 hp0
    have hemp : p0.2.emp_map = empMapOf (cs.filter (fun r => deptNameOf r = p0.1)) := by
      rw [hchar, deptAggOf_empMap]
    have hxkeys : x ∈ akeys p0.2.emp_map := by
      rw [hemp, mem_akeys_empMapOf]
      refine List.mem_map.mpr ⟨r, ?_, hrx⟩
      exact List.mem_filter.mpr ⟨hr, by simp [hfst]⟩
    obtain ⟨q, hq, hq1⟩ := List.mem_map.mp hxkeys
    refine ⟨(p0.1, finalizeDept p0.2), List.mem_map.mpr ⟨p0, hp0, rfl⟩, q.2, ?_, ?_⟩
    · exact List.mem_map_of_mem Prod.snd hq
    · rw [hemp] at hq
      rw [empMapOf_entry_id _ q hq, hq1]

/-! ### Node assembly: from the service output back to the rows in scope -/

theorem clientAgg_departments_char (keys : List String) (rows : List SRow)
    (ym : Int × Int) (c : String) (ma : MonthAgg) (ca : ClientAgg)
    (hm : alookup (aggregate keys rows) ym = some ma)
    (hc : alookup ma.clients c = some ca) :
    ca.departments = deptMapOf (clientRowsOf keys rows ym c) ∧
      clientRowsOf keys rows ym c ≠ [] := by
  have hma : ma.clients = (qualRowsOf keys rows ym).foldl
      (fun cl r => bump cl (clientNameOf r) (clientInit r) (clientUpd r)) [] := by
    have h1 := alookup_aggregate keys rows ym
    rw [hm] at h1
    cases hmr : monthRowsOf rows ym with
    | nil => rw [hmr] at h1; cases h1
    | cons m ms =>
      rw [hmr] at h1
      have hma2 : ma = (monthRowsOf rows ym).foldl (fun m r => monthUpd keys r m) monthInit := by
        rw [hmr]
        exact (Option.some.inj h1).symm ▸ rfl
      rw [hma2, monthFold_clients]
      rfl
  have h2 := alookup_clientsMap (qualRowsOf keys rows ym) c
  rw [← hma, hc] at h2
  cases hcr : (qualRowsOf keys rows ym).filter (fun r => clientNameOf r = c) with
  | nil => rw [hcr] at h2; cases h2
  | cons r rs =>
    rw [hcr] at h2
    have hca : ca = rs.foldl (fun a r => clientUpd r a) (clientUpd r (clientInit r)) :=
      Option.some.inj h2
    constructor
    · rw [hca, clientFold_departments]
      show _ = deptMapOf (clientRowsOf keys rows ym c)
      unfold deptMapOf clientRowsOf
      rw [hcr]
      rfl
    · show clientRowsOf keys rows ym c ≠ []
      unfold clientRowsOf
      rw [hcr]
      exact List.cons_ne_nil r rs

theorem deptAgg_node_char (keys : List String) (rows : List SRow)
    (ym : Int × Int) (c d : String) (ma : MonthAgg) (ca : ClientAgg) (da : DeptAgg)
    (hm : alookup (aggregate keys rows) ym = some ma)
    (hc : alookup ma.clients c = some ca)
    (hd : alookup ca.departments d = some da) :
    da = deptAggOf (deptRowsOf keys rows ym c d) ∧
      deptRowsOf keys rows ym c d ≠ [] := by
  obtain ⟨hdep, _⟩ := clientAgg_departments_char keys rows ym c ma ca hm hc
  rw [hdep] at hd
  have h3 := alookup_deptMap (clientRowsOf keys rows ym c) d
  unfold deptMapOf at hd
  rw [hd] at h3
  cases hdr : (clientRowsOf keys rows ym c).filter (fun r => deptNameOf r = d) with
  | nil => rw [hdr] at h3; cases h3
  | cons r rs =>
    rw [hdr] at h3
    constructor
    · show da = deptAggOf (deptRowsOf keys rows ym c d)
      unfold deptAggOf deptRowsOf
      rw [hdr]
      exact Option.some.inj h3
    · show deptRowsOf keys rows ym c d ≠ []
      unfold deptRowsOf
      rw [hdr]
      exact List.cons_ne_nil r rs

/-! ### Field-level facts about a recomputed department accumulator -/

theorem deptAggOf_head_count (ds : List SRow) :
    (finalizeDept (deptAggOf ds)).dept_head_count = ((ds.map eidOf).toFinset).card := by
  show (deptAggOf ds).emp_map.length = _
  rw [deptAggOf_empMap, empMapOf_length]

theorem deptAggOf_total (ds : List SRow) :
    (deptAggOf ds).dept_total = (ds.map rowValue).sum := by
  unfold deptAggOf
  rw [deptFold_total]
  show (0 : ℚ) + _ = _
  rw [zero_add]

theorem deptAggOf_shift (ds : List SRow) (k : String) :
    (deptAggOf ds).shift k = ((ds.filter (fun r => shiftKeyOf r = k)).map rowValue).sum := by
  unfold deptAggOf
  rw [deptFold_shift]
  show (0 : ℚ) + _ = _
  rw [zero_add]

theorem deptAggOf_emp_char (ds : List SRow) (E : String) (e : EmpAgg)
    (h : alookup (deptAggOf ds).emp_map E = some e) :
    e.emp_id = E ∧
      e.total = ((ds.filter (fun r => eidOf r = E)).map rowValue).sum ∧
      (∀ k, e.shift k =
        (((ds.filter (fun r => eidOf r = E)).filter
          (fun r => shiftKeyOf r = k)).map rowValue).sum) := by
  rw [deptAggOf_empMap] at h
  have hchar := alookup_empMap ds E
  unfold empMapOf at h
  rw [h] at hchar
  cases hfil : ds.filter (fun r => eidOf r = E) with
  | nil => rw [hfil] at hchar; cases hchar
  | cons r rs =>
    rw [hfil] at hchar
    have he : e = (r :: rs).foldl (fun a r => empUpd r a) (empInit r) :=
      Option.some.inj hchar
    have hr : eidOf r = E := by
      have : r ∈ ds.filter (fun r => eidOf r = E) := hfil ▸ List.mem_cons_self r rs
      simpa using (List.mem_filter.mp this).2
    refine ⟨?_, ?_, ?_⟩
    · rw [he, empFold_id]
      exact hr
    · rw [he, empFold_total]
      show (0 : ℚ) + _ = _
      rw [zero_add]
    · intro k
      rw [he, empFold_shift]
      show (0 : ℚ) + _ = _
      rw [zero_add]

/-! ### Characterisation of the dashboard-summary aggregation -/

theorem foldl_filterB_eq {R B : Type} (p : R → Bool) (g : B → R → B)
    (rows : List R) (b : B) :
    (rows.filter p).foldl g b =
      rows.foldl (fun acc r => if p r then g acc r else acc) b := by
  induction rows generalizing b with
  | nil => rfl
  | cons r rs ih =>
    by_cases h : p r <;> simp [List.filter_cons, h, ih]

theorem foldl_if_insert {R K : Type} [DecidableEq K] (f : R → K) (p : R → Prop)
    [DecidablePred p] (rows : List R) (s0 : Finset K) :
    rows.foldl (fun s r => if p r then insert (f r) s else s) s0 =
      s0 ∪ ((rows.filter (fun r => p r)).map f).toFinset := by
  induction rows generalizing s0 with
  | nil => simp
  | cons r rs ih =>
    by_cases h : p r
    · have hf : (r :: rs).filter (fun r => p r) = r :: rs.filter (fun r => p r) := by
        simp [List.filter_cons, h]
      simp only [List.foldl_cons, if_pos h, hf, List.map_cons, List.toFinset_cons]
      rw [ih]
      ext y
      simp only [Finset.mem_union, Finset.mem_insert, List.mem_toFinset]
      tauto
    · have hf : (r :: rs).filter (fun r => p r) = rs.filter (fun r => p r) := by
        simp [List.filter_cons, h]
      simp only [List.foldl_cons, if_neg h, hf]
      exact ih s0

theorem alookup_self_map {K A : Type} [DecidableEq K] (ks : List K) (b : A) (k : K) :
    alookup (ks.map (fun s => (s, b))) k = if k ∈ ks then some b else none := by
  induction ks with
  | nil => simp [alookup]
  | cons k0 t ih =>
    by_cases h0 : k0 = k
    · subst h0; simp [alookup]
    · have hne : k ≠ k0 := fun h => h0 h.symm
      simp [alookup, h0, ih, hne, hne.symm]

theorem dashFold_partner (st : List String) (sel : Option (List String))
    (rows : List DRow) (s0 : DashState) :
    (rows.foldl (dashStep st sel) s0).client_partner =
      (rows.filter (fun r => dRowKept st sel r)).foldl
        (fun m r => bump m (dCp r) (emptyPNode st) (pnodeUpd st r)) s0.client_partner := by
  rw [foldl_filterB_eq]
  induction rows generalizing s0 with
  | nil => rfl
  | cons r rs ih =>
    simp only [List.foldl_cons]
    rw [ih]
    by_cases h : dRowKept st sel r <;> simp [dashStep, h]

theorem pFold_total (st : List String) (ds : List DRow) (n0 : PNode) :
    (ds.foldl (fun a r => pnodeUpd st r a) n0).total_allowance =
      n0.total_allowance + (ds.map dAllowance).sum := by
  induction ds generalizing n0 with
  | nil => simp
  | cons r rs ih =>
    simp only [List.foldl_cons, List.map_cons, List.sum_cons]
    rw [ih]
    show n0.total_allowance + dAllowance r + _ = _
    ring

theorem pFold_heads (st : List String) (ds : List DRow) (n0 : PNode) :
    (ds.foldl (fun a r => pnodeUpd st r a) n0).head_count =
      n0.head_count ∪ ((ds.filter (fun r => dEid r ≠ "")).map dEid).toFinset := by
  have hproj : (ds.foldl (fun a r => pnodeUpd st r a) n0).head_count =
      ds.foldl (fun s r => if dEid r ≠ "" then insert (dEid r) s else s) n0.head_count := by
    induction ds generalizing n0 with
    | nil => rfl
    | cons r rs ih => simp only [List.foldl_cons]; rw [ih]; rfl
  rw [hproj, foldl_if_insert]

theorem pFold_shifts (st : List String) (ds : List DRow) (n0 : PNode) :
    (ds.foldl (fun a r => pnodeUpd st r a) n0).shifts =
      ds.foldl (fun m r =>
        bump m (dShiftKey r) emptyBucket (bucketUpd (dAllowance r) (dEid r))) n0.shifts := by
  induction ds generalizing n0 with
  | nil => rfl
  | cons r rs ih => simp only [List.foldl_cons]; rw [ih]; rfl

theorem bucketFold_total (ds : List DRow) (b0 : ShiftBucket) :
    (ds.foldl (fun b r => bucketUpd (dAllowance r) (dEid r) b) b0).total =
      b0.total + (ds.map dAllowance).sum := by
  induction ds generalizing b0 with
  | nil => simp
  | cons r rs ih =>
    simp only [List.foldl_cons, List.map_cons, List.sum_cons]
    rw [ih]
    show b0.total + dAllowance r + _ = _
    ring

theorem bucketFold_heads (ds : List DRow) (b0 : ShiftBucket) :
    (ds.foldl (fun b r => bucketUpd (dAllowance r) (dEid r) b) b0).head_count =
      b0.head_count ∪ ((ds.filter (fun r => dEid r ≠ "")).map dEid).toFinset := by
  have hproj : (ds.foldl (fun b r => bucketUpd (dAllowance r) (dEid r) b) b0).head_count =
      ds.foldl (fun s r => if dEid r ≠ "" then insert (dEid r) s else s) b0.head_count := by
    induction ds generalizing b0 with
    | nil => rfl
    | cons r rs ih => simp only [List.foldl_cons]; rw [ih]; rfl
  rw [hproj, foldl_if_insert]

/-- Partner-node accumulator recomputed from the partner's rows. -/
def pnodeOf (st : List String) (ds : List DRow) : PNode :=
  ds.foldl (fun a r => pnodeUpd st r a) (emptyPNode st)

/-- The client-partner entry of the dashboard aggregation. -/
theorem dashAgg_partner_char (st : List String) (sel : Option (List String))
    (rows : List DRow) (cp : String) :
    alookup (dashAggregate st sel rows).client_partner cp =
      match cpRowsOf st sel rows cp with
      | [] => none
      | ds => some (pnodeOf st ds) := by
  unfold dashAggregate
  rw [dashFold_partner]
  show alookup ((rows.filter (fun r => dRowKept st sel r)).foldl
    (fun m r => bump m (dCp r) (emptyPNode st) (pnodeUpd st r)) []) cp = _
  rw [alookup_foldl_bump dCp (fun _ => emptyPNode st) (pnodeUpd st) _ [] cp]
  show (rows.filter (fun r => dRowKept st sel r)).foldl
    (fun o r => if dCp r = cp then some (pnodeUpd st r (o.getD (emptyPNode st))) else o)
    none = _
  rw [← foldl_filter_eq (fun r => dCp r = cp)
    (fun o r => some (pnodeUpd st r (o.getD (emptyPNode st)))) _ none]
  unfold cpRowsOf pnodeOf
  cases h : (rows.filter (fun r => dRowKept st sel r)).filter (fun r => dCp r = cp) with
  | nil => rfl
  | cons r rs => simp [optFoldl_some]

/-- The per-shift bucket of a partner node: defined whenever the key is
configured or some row touched it, and then it is the fold of the bucket
update over exactly the node's rows with that shift key. -/
theorem pnodeOf_bucket (st : List String) (ds : List DRow) (k : String)
    (h : k ∈ st ∨ ds.filter (fun r => dShiftKey r = k) ≠ []) :
    alookup (pnodeOf st ds).shifts k =
      some ((ds.filter (fun r => dShiftKey r = k)).foldl
        (fun b r => bucketUpd (dAllowance r) (dEid r) b) emptyBucket) := by
  unfold pnodeOf
  rw [pFold_shifts]
  show alookup (ds.foldl (fun m r =>
    bump m (dShiftKey r) emptyBucket (bucketUpd (dAllowance r) (dEid r)))
    (st.map (fun s => (s, emptyBucket)))) k = _
  rw [alookup_foldl_bump dShiftKey (fun _ => emptyBucket)
    (fun r => bucketUpd (dAllowance r) (dEid r)) ds _ k]
  rw [alookup_self_map]
  by_cases hk : k ∈ st
  · rw [if_pos hk]
    show ds.foldl (fun o r => if dShiftKey r = k then
      some (bucketUpd (dAllowance r) (dEid r) (o.getD emptyBucket)) else o)
      (some emptyBucket) = _
    rw [← foldl_filter_eq (fun r => dShiftKey r = k)
      (fun o r => some (bucketUpd (dAllowance r) (dEid r) (o.getD emptyBucket))) ds
      (some emptyBucket)]
    rw [optFoldl_some]
  · rw [if_neg hk]
    show ds.foldl (fun o r => if dShiftKey r = k then
      some (bucketUpd (dAllowance r) (dEid r) (o.getD emptyBucket)) else o)
      none = _
    rw [← foldl_filter_eq (fun r => dShiftKey r = k)
      (fun o r => some (bucketUpd (dAllowance r) (dEid r) (o.getD emptyBucket))) ds none]
    cases hfil : ds.filter (fun r => dShiftKey r = k) with
    | nil =>
      rcases h with hk2 | hne
      · exact absurd hk2 hk
      · exact absurd hfil hne
    | cons r rs => simp [optFoldl_some]

/-! ## Claim C1 -/

/-- C1: in every aggregation node — department and client
(`client_summary_service`) and client-partner
(`dashboard_service.get_client_dashboard_summary`) — an employee appearing in
several rows of the node's scope is counted once: the head count is the
number of unique employee ids (nonempty ids at the client/partner levels),
never the number of rows, and the per-shift totals are the sums of the rows'
contributions, with one merged employee entry accumulating all of an
employee's rows. -/
theorem spec_C1_headcount_unique (keys : List String) (rows : List SRow)
    (ym : Int × Int) (c d : String) (ma : MonthAgg) (ca : ClientAgg) (da : DeptAgg)
    (st : List String) (sel : Option (List String)) (drows : List DRow)
    (cp : String) (pn : PNode)
    (hm : alookup (aggregate keys rows) ym = some ma)
    (hc : alookup ma.clients c = some ca)
    (hd : alookup ca.departments d = some da)
    (hp : alookup (dashAggregate st sel drows).client_partner cp = some pn) :
    (finalizeDept da).dept_head_count =
        (((deptRowsOf keys rows ym c d).map eidOf).toFinset).card ∧
    (∀ k, da.shift k =
        (((deptRowsOf keys rows ym c d).filter (fun r => shiftKeyOf r = k)).map
          rowValue).sum) ∧
    (∀ E e, alookup da.emp_map E = some e →
        e.emp_id = E ∧
        e.total = (((deptRowsOf keys rows ym c d).filter
          (fun r => eidOf r = E)).map rowValue).sum ∧
        ∀ k, e.shift k = ((((deptRowsOf keys rows ym c d).filter
          (fun r => eidOf r = E)).filter (fun r => shiftKeyOf r = k)).map rowValue).sum) ∧
    (clientUniqueIds (finalizeClient ca).departments).card =
        ((((clientRowsOf keys rows ym c).map eidOf).filter
          (fun e => e ≠ "")).toFinset).card ∧
    pNodeHeadCount pn =
        ((((cpRowsOf st sel drows cp).filter (fun r => dEid r ≠ "")).map
          dEid).toFinset).card ∧
    (∀ k, (k ∈ st ∨ (cpRowsOf st sel drows cp).filter (fun r => dShiftKey r = k) ≠ []) →
        ∃ b, alookup pn.shifts k = some b ∧
          b.total = (((cpRowsOf st sel drows cp).filter
            (fun r => dShiftKey r = k)).map dAllowance).sum ∧
          b.head_count.card = ((((cpRowsOf st sel drows cp).filter
            (fun r => dShiftKey r = k)).filter (fun r => dEid r ≠ "")).map
              dEid).toFinset.card) := by
  obtain ⟨hda, _⟩ := deptAgg_node_char keys rows ym c d ma ca da hm hc hd
  obtain ⟨hdep, _⟩ := clientAgg_departments_char keys rows ym c ma ca hm hc
  have hpn : pn = pnodeOf st (cpRowsOf st sel drows cp) := by
    have hchar := dashAgg_partner_char st sel drows cp
    rw [hp] at hchar
    cases hcp : cpRowsOf st sel drows cp with
    | nil => rw [hcp] at hchar; cases hchar
    | cons r rs =>
      rw [hcp] at hchar
      exact Option.some.inj hchar
  refine ⟨?_, ?_, ?_, ?_, ?_, ?_⟩
  · rw [hda, deptAggOf_head_count]
  · intro k
    rw [hda, deptAggOf_shift]
  · intro E e he
    rw [hda] at he
    exact deptAggOf_emp_char _ E e he
  · have : (finalizeClient ca).departments =
        (deptMapOf (clientRowsOf keys rows ym c)).map (fun p => (p.1, finalizeDept p.2)) := by
      show ca.departments.map _ = _
      rw [hdep]
    rw [this, clientUniqueIds_char]
  · rw [hpn]
    show (pnodeOf st (cpRowsOf st sel drows cp)).head_count.card = _
    unfold pnodeOf
    rw [pFold_heads]
    show ((∅ : Finset String) ∪ _).card = _
    rw [Finset.empty_union]
  · intro k hk
    rw [hpn]
    refine ⟨_, pnodeOf_bucket st (cpRowsOf st sel drows cp) k hk, ?_, ?_⟩
    · rw [bucketFold_total]
      show (0 : ℚ) + _ = _
      rw [zero_add]
    · rw [bucketFold_heads]
      show ((∅ : Finset String) ∪ _).card = _
      rw [Finset.empty_union]

/-- Concrete inputs for the C1 witness: the spec's end-to-end scenario —
employee E1 with two rows (shift A, 2 days at 500; shift B, 1 day at 350) in
the same client/department/month, plus the same two rows in dashboard form. -/
def c1rows : List SRow :=
  [{ duration_month := (2025, 1), client := some "C1", department := some "D1",
     emp_id := some "E1", emp_name := some "Alice", client_partner := some "P1",
     shift_type := some "A", days := some 2, amount := some 500 },
   { duration_month := (2025, 1), client := some "C1", department := some "D1",
     emp_id := some "E1", emp_name := some "Alice", client_partner := some "P1",
     shift_type := some "B", days := some 1, amount := some 350 }]

def c1keys : List String := ["A", "B"]

def c1ma : MonthAgg := (alookup (aggregate c1keys c1rows) (2025, 1)).getD monthInit

def c1ca : ClientAgg :=
  (alookup c1ma.clients "C1").getD { client_name := "", client_partner := "", departments := [] }

def c1da : DeptAgg := (alookup c1ca.departments "D1").getD deptInit

def c1drows : List DRow :=
  [{ emp_id := some "E1", client := some "C1", department := some "D1",
     client_partner := some "P1", shift_type := some "A", days := some 2, amount := 500 },
   { emp_id := some "E1", client := some "C1", department := some "D1",
     client_partner := some "P1", shift_type := some "B", days := some 1, amount := 350 }]

def c1pn : PNode :=
  (alookup (dashAggregate c1keys none c1drows).client_partner "P1").getD (emptyPNode c1keys)

/-- Witness for C1 at the end-to-end scenario. -/
theorem spec_C1_headcount_unique_witness :
    (alookup (aggregate c1keys c1rows) (2025, 1) = some c1ma) ∧
    (alookup c1ma.clients "C1" = some c1ca) ∧
    (alookup c1ca.departments "D1" = some c1da) ∧
    (alookup (dashAggregate c1keys none c1drows).client_partner "P1" = some c1pn) ∧
    ((finalizeDept c1da).dept_head_count =
        (((deptRowsOf c1keys c1rows (2025, 1) "C1" "D1").map eidOf).toFinset).card ∧
    (∀ k, c1da.shift k =
        (((deptRowsOf c1keys c1rows (2025, 1) "C1" "D1").filter
          (fun r => shiftKeyOf r = k)).map rowValue).sum) ∧
    (∀ E e, alookup c1da.emp_map E = some e →
        e.emp_id = E ∧
        e.total = (((deptRowsOf c1keys c1rows (2025, 1) "C1" "D1").filter
          (fun r => eidOf r = E)).map rowValue).sum ∧
        ∀ k, e.shift k = ((((deptRowsOf c1keys c1rows (2025, 1) "C1" "D1").filter
          (fun r => eidOf r = E)).filter (fun r => shiftKeyOf r = k)).map rowValue).sum) ∧
    (clientUniqueIds (finalizeClient c1ca).departments).card =
        ((((clientRowsOf c1keys c1rows (2025, 1) "C1").map eidOf).filter
          (fun e => e ≠ "")).toFinset).card ∧
    pNodeHeadCount c1pn =
        ((((cpRowsOf c1keys none c1drows "P1").filter (fun r => dEid r ≠ "")).map
          dEid).toFinset).card ∧
    (∀ k, (k ∈ c1keys ∨
        (cpRowsOf c1keys none c1drows "P1").filter (fun r => dShiftKey r = k) ≠ []) →
        ∃ b, alookup c1pn.shifts k = some b ∧
          b.total = (((cpRowsOf c1keys none c1drows "P1").filter
            (fun r => dShiftKey r = k)).map dAllowance).sum ∧
          b.head_count.card = ((((cpRowsOf c1keys none c1drows "P1").filter
            (fun r => dShiftKey r = k)).filter (fun r => dEid r ≠ "")).map
              dEid).toFinset.card)) := by
  have h1 : alookup (aggregate c1keys c1rows) (2025, 1) = some c1ma := rfl
  have h2 : alookup c1ma.clients "C1" = some c1ca := rfl
  have h3 : alookup c1ca.departments "D1" = some c1da := rfl
  have h4 : alookup (dashAggregate c1keys none c1drows).client_partner "P1" = some c1pn := rfl
  exact ⟨h1, h2, h3, h4,
    spec_C1_headcount_unique c1keys c1rows (2025, 1) "C1" "D1" c1ma c1ca c1da
      c1keys none c1drows "P1" c1pn h1 h2 h3 h4⟩

/-! ## Claim C2 -/

/-- C2 counterexample: with data only in 2025-03 and today = 2025-06, the
dashboard resolver (`validate_years_months_with_warnings` with neither years
nor months) does return the single fallback period `(2025, 3)`, but with an
empty message list — a silent, message-free substitution, contradicting the
claim that every resolver reports the fallback with an advisory message. -/
theorem spec_C2_counterexample :
    validateYearsMonthsWithWarnings (some [(2025, 3)]) (2025, 6) [] [] =
      Except.ok ([(2025, 3)], []) := by rfl

/-- C2 (amended): with no explicit years/months, no data for the current
month, and data within the last-12-months window, the client-comparison
resolver `_resolve_periods_and_messages` returns exactly the single latest
such period together with an advisory message (not empty, not an error);
the dashboard resolver's `_fallback_pairs_for_empty_selection` returns its
single fallback pair with the warning list passed through unchanged — by
design a silent substitution. -/
theorem spec_C2_amended_fallback (data : List YM) (today : YM) (latest : YM)
    (hcur : (today.1, today.2) ∉ data)
    (hlat : latestYM (data.filter (fun p => ymLeb (today.1 - 1, today.2) p)) = some latest) :
    resolvePeriodsAndMessages data [] [] today =
      ([latest.1], [(latest.1, [latest.2])],
        ["No data for current month. Showing latest available month in last 12 months: "
          ++ toString latest.2 ++ "-" ++ toString latest.1]) ∧
    (∀ (db : Option (List YM)) (warnings : List String),
      (fallbackPairsForEmptySelection db today warnings).2 = warnings) := by
  constructor
  · unfold resolvePeriodsAndMessages
    have hy : normalizeYears ([] : List Int) = [] := rfl
    have hmth : normalizeMonths ([] : List Int) = [] := rfl
    simp only [ite_self, hy, hmth, if_pos (And.intro rfl rfl), if_neg hcur, hlat]
    by_cases hfut : (latest.1 > today.1) ∨ (latest.1 = today.1 ∧ latest.2 > today.2)
    · simp [hfut, sortedDedupYM, dedupKeepFirst, groupPairsByYear, bump,
        List.insertionSort, List.orderedInsert]
    · simp [hfut, sortedDedupYM, dedupKeepFirst, groupPairsByYear, bump,
        List.insertionSort, List.orderedInsert]
  · intro db warnings
    unfold fallbackPairsForEmptySelection
    cases db with
    | none => rfl
    | some l2 =>
      by_cases h : today ∈ l2
      · simp [h]
      · simp only [if_neg h]
        cases h1 : latestYM (l2.filter (fun p => p ∈ lastNMonthPairs today 12)) with
        | some l => simp
        | none =>
          cases h2 : latestYM l2 with
          | some l => simp
          | none => simp

/-- Witness for the amended C2 at the concrete scenario of the claim:
data only in 2025-03, today = 2025-06. -/
theorem spec_C2_amended_fallback_witness :
    (((2025 : Int), (6 : Int)).1, ((2025 : Int), (6 : Int)).2) ∉ [((2025 : Int), (3 : Int))] ∧
    latestYM (([((2025 : Int), (3 : Int))]).filter
      (fun p => ymLeb ((2025 : Int) - 1, (6 : Int)) p)) = some (2025, 3) ∧
    (resolvePeriodsAndMessages [((2025 : Int), (3 : Int))] [] [] (2025, 6) =
      ([((2025 : Int), (3 : Int)).1],
        [(((2025 : Int), (3 : Int)).1, [((2025 : Int), (3 : Int)).2])],
        ["No data for current month. Showing latest available month in last 12 months: "
          ++ toString ((2025 : Int), (3 : Int)).2 ++ "-"
          ++ toString ((2025 : Int), (3 : Int)).1]) ∧
    (∀ (db : Option (List YM)) (warnings : List String),
      (fallbackPairsForEmptySelection db ((2025 : Int), (6 : Int)) warnings).2 = warnings)) := by
  refine ⟨by decide, by decide, ?_⟩
  exact spec_C2_amended_fallback [(2025, 3)] (2025, 6) (2025, 3) (by decide) (by decide)

/-! ## Claim C3 -/

theorem sortClients_perm (keys : List String) (sort_by sort_order : String)
    (items : List (String × ClientOut)) :
    List.Perm (sortClients keys sort_by sort_order items) items := by
  unfold sortClients
  by_cases h1 : actualSortField sort_by = "client_name" <;>
    by_cases h2 : sort_order ≠ "asc" <;>
      simp [h1, h2, List.perm_insertionSort]

theorem mem_filterClients (ranges : Option (List (Nat × Nat)))
    (cs : List (String × ClientFin)) (name : String) :
    (∃ co, (name, co) ∈ filterClients ranges cs) ↔
      ∃ p ∈ cs, p.1 = name ∧
        rangeMatches ((clientUniqueIds p.2.departments).card) ranges = true := by
  unfold filterClients
  constructor
  · rintro ⟨co, hco⟩
    obtain ⟨a, ha, hfa⟩ := List.mem_filterMap.mp hco
    by_cases hr : rangeMatches ((clientUniqueIds a.2.departments).card) ranges = true
    · refine ⟨a, ha, ?_, hr⟩
      simp only [hr, if_true] at hfa
      exact congrArg Prod.fst (Option.some.inj hfa)
    · simp only [hr, if_false] at hfa
      cases hfa
  · rintro ⟨p, hp, rfl, hr⟩
    refine ⟨{ client_name := p.2.client_name, client_partner := p.2.client_partner,
              departments := p.2.departments,
              client_head_count := (clientUniqueIds p.2.departments).card,
              client_total := ((p.2.departments.map Prod.snd).map DeptOut.dept_total).sum,
              shift := fun k =>
                ((p.2.departments.map Prod.snd).map (fun d => d.shift k)).sum },
      List.mem_filterMap.mpr ⟨p, hp, ?_⟩⟩
    simp only [hr, if_true]

/-- C3: a client node appears in the filtered output exactly when its
unique-employee head count lies within at least one requested range (OR
semantics); nodes failing all ranges are removed from the result entirely.
The concrete conjuncts check the spec's example: a node with 7 unique
employees passes `["1-5","6-10"]` and fails `["1-5","20-30"]`, both for
`client_summary_service`'s parser/matcher and for the comparison service's
`_headcount_matches`. -/
theorem spec_C3_headcount_or_filter (keys : List String) (ranges : List (Nat × Nat))
    (hne : ranges ≠ []) (sort_by sort_order : String) (m : MonthAgg) (name : String) :
    ((∃ co, (name, co) ∈ (buildMonth keys (some ranges) sort_by sort_order m).clients) ↔
      (∃ p ∈ m.clients, p.1 = name ∧
        rangeMatches ((clientUniqueIds (finalizeClient p.2).departments).card)
          (some ranges) = true)) ∧
    (∀ hc, rangeMatches hc (some ranges) = true ↔ ∃ q ∈ ranges, q.1 ≤ hc ∧ hc ≤ q.2) ∧
    parseHeadcountRanges (.many ["1-5", "6-10"]) = Except.ok (some [(1, 5), (6, 10)]) ∧
    rangeMatches 7 (some [(1, 5), (6, 10)]) = true ∧
    rangeMatches 7 (some [(1, 5), (20, 30)]) = false ∧
    headcountMatches (some 7) (some [.range 1 5, .range 6 10]) = true ∧
    headcountMatches (some 7) (some [.range 1 5, .range 20 30]) = false := by
  refine ⟨?_, ?_, by rfl, by decide, by decide, by decide, by decide⟩
  · have hbm : (buildMonth keys (some ranges) sort_by sort_order m).clients =
        sortClients keys sort_by sort_order
          (filterClients (some ranges) (m.clients.map (fun p => (p.1, finalizeClient p.2)))) := rfl
    rw [hbm]
    have hperm := sortClients_perm keys sort_by sort_order
      (filterClients (some ranges) (m.clients.map (fun p => (p.1, finalizeClient p.2))))
    constructor
    · rintro ⟨co, hco⟩
      have : (name, co) ∈ filterClients (some ranges)
          (m.clients.map (fun p => (p.1, finalizeClient p.2))) := hperm.mem_iff.mp hco
      obtain ⟨a, ha, hname, hr⟩ := (mem_filterClients _ _ name).mp ⟨co, this⟩
      obtain ⟨p, hp, rfl⟩ := List.mem_map.mp ha
      exact ⟨p, hp, hname, hr⟩
    · rintro ⟨p, hp, hname, hr⟩
      obtain ⟨co, hco⟩ := (mem_filterClients (some ranges)
        (m.clients.map (fun q => (q.1, finalizeClient q.2))) name).mpr
        ⟨(p.1, finalizeClient p.2), List.mem_map.mpr ⟨p, hp, rfl⟩, hname, hr⟩
      exact ⟨co, hperm.mem_iff.mpr hco⟩
  · intro hc
    cases ranges with
    | nil => exact absurd rfl hne
    | cons q t =>
      show (q :: t).any (fun p => decide (p.1 ≤ hc) && decide (hc ≤ p.2)) = true ↔ _
      simp [List.any_eq_true]

/-- A month accumulator holding one client with exactly 7 unique employees. -/
def c3m : MonthAgg :=
  { clients := [("C7",
      { client_name := "C7", client_partner := "",
        departments := [("D",
          { shift := fun _ => 0, dept_total := 0,
            emp_map := (["E1", "E2", "E3", "E4", "E5", "E6", "E7"]).map
              (fun e => (e, { emp_id := e, emp_name := e, client_partner := "",
                              total := 0, shift := fun _ => 0 })) })] })] }

/-- Witness for C3 at a client with 7 unique employees and the ranges
`[(1,5),(6,10)]`. -/
theorem spec_C3_headcount_or_filter_witness :
    ([((1 : Nat), (5 : Nat)), (6, 10)] ≠ []) ∧
    (((∃ co, ("C7", co) ∈
        (buildMonth [] (some [(1, 5), (6, 10)]) "client_total" "desc" c3m).clients) ↔
      (∃ p ∈ c3m.clients, p.1 = "C7" ∧
        rangeMatches ((clientUniqueIds (finalizeClient p.2).departments).card)
          (some [(1, 5), (6, 10)]) = true)) ∧
    (∀ hc, rangeMatches hc (some [(1, 5), (6, 10)]) = true ↔
      ∃ q ∈ [((1 : Nat), (5 : Nat)), (6, 10)], q.1 ≤ hc ∧ hc ≤ q.2) ∧
    parseHeadcountRanges (.many ["1-5", "6-10"]) = Except.ok (some [(1, 5), (6, 10)]) ∧
    rangeMatches 7 (some [(1, 5), (6, 10)]) = true ∧
    rangeMatches 7 (some [(1, 5), (20, 30)]) = false ∧
    headcountMatches (some 7) (some [.range 1 5, .range 6 10]) = true ∧
    headcountMatches (some 7) (some [.range 1 5, .range 20 30]) = false) :=
  ⟨by decide,
    spec_C3_headcount_or_filter [] [(1, 5), (6, 10)] (by decide) "client_total" "desc" c3m "C7"⟩

/-! ## Claim C5 -/

/-- Two clients aggregated in insertion order A1 (one employee) then B1
(two employees). -/
def c5rows : List SRow :=
  [{ duration_month := (2025, 1), client := some "A1", department := some "D",
     emp_id := some "E1", emp_name := some "E1", client_partner := some "P",
     shift_type := some "A", days := some 1, amount := some 100 },
   { duration_month := (2025, 1), client := some "B1", department := some "D",
     emp_id := some "E2", emp_name := some "E2", client_partner := some "P",
     shift_type := some "A", days := some 1, amount := some 200 },
   { duration_month := (2025, 1), client := some "B1", department := some "D",
     emp_id := some "E3", emp_name := some "E3", client_partner := some "P",
     shift_type := some "A", days := some 1, amount := some 200 }]

/-- C5 counterexample: `client_summary_service` has no handling for
`sort_order = "default"` — it computes `reverse = sort_order != "asc"` and
always sorts.  The aggregation produces clients in order `[A1, B1]`, yet the
pipeline with `sort_order = "default"` and `sort_by = "head_count"` emits
`[B1, A1]`: the relative order of the two nodes changed, so "default" is not
the identity on order. -/
theorem spec_C5_counterexample :
    ((aggregate ["A"] c5rows).map (fun p => akeys p.2.clients)) = [["A1", "B1"]] ∧
    ((clientSummaryPipeline ["A"] none "head_count" "default" c5rows).map
      (fun p => akeys p.2.clients)) = [["B1", "A1"]] :=
  ⟨rfl, rfl⟩

/-- C5 (amended): `apply_sort_dict` (dashboard_service) does honour
`sort_order = "default"` as the identity on order for every `sort_by`;
`client_summary_service`'s sort step instead treats any `sort_order` other
than `"asc"` — including `"default"` — as `"desc"` and reorders. -/
theorem spec_C5_amended_default_sort :
    (∀ (V : Type) (getNum : V → String → ℚ) (data : List (String × V)) (sort_by : String),
      applySortDict getNum data sort_by "default" = data) ∧
    (∀ (keys : List String) (sort_by : String) (items : List (String × ClientOut)),
      sortClients keys sort_by "default" items = sortClients keys sort_by "desc" items) := by
  constructor
  · intro V getNum data sort_by
    simp [applySortDict]
  · intro keys sort_by items
    have hd : (("default" : String) ≠ "asc") := by decide
    have hds : (("desc" : String) ≠ "asc") := by decide
    by_cases hf : actualSortField sort_by = "client_name" <;>
      simp [sortClients, hf, hd, hds]

/-! ## Claim C4 -/

theorem foldl_id {α β : Type} (f : β → α → β) (h : ∀ b a, f b a = b)
    (l : List α) (b : β) : l.foldl f b = b := by
  induction l generalizing b with
  | nil => rfl
  | cons a t ih => simp only [List.foldl_cons, h]; exact ih b

theorem ctMapStep_no_rates (allowed : Option (List String)) (client dept : String)
    (acc : CTState × Bool) (mp : Option String × Option ℚ) :
    ctMapStep [] allowed client dept acc mp = acc := by
  unfold ctMapStep
  have hrate : rateLookup [] (pyUpper (mp.1.getD "")) = 0 := rfl
  by_cases h1 : (mp.2.getD 0) ≤ 0
  · simp [h1]
  · cases allowed with
    | none => simp [h1, hrate]
    | some al =>
      by_cases h2 : pyUpper (mp.1.getD "") ∉ al
      · simp [h1, h2]
      · simp [h1, h2, hrate]

theorem ctRowStep_no_rates (allowed : Option (List String)) (st : CTState) (row : CRow) :
    ctRowStep [] allowed st row = st := by
  have hfold : ∀ c d, row.shift_mappings.foldl (ctMapStep [] allowed c d) (st, false) =
      (st, false) :=
    fun c d => foldl_id (ctMapStep [] allowed c d) (ctMapStep_no_rates allowed c d) _ _
  unfold ctRowStep
  simp only [hfold]
  cases row.emp_id with
  | none => rfl
  | some e => by_cases he : e ≠ "" <;> simp [he]

/-- The single row of the C4 counterexample: employee E1, 2 days of shift A,
with an empty Rate Table. -/
def c4crow : CRow :=
  { emp_id := some "E1", emp_name := some "E1", department := some "D1",
    client := some "C1", client_partner := some "P",
    shift_mappings := [(some "A", some 2)] }

/-- C4 counterexample: in `get_client_total_allowances` a mapping whose
computed `amount = days * rate` is not positive is skipped (`continue`), so
with no Rate Table entry for shift A the row contributes nothing at all —
the result contains no client node and employee E1 counts toward no
headcount, contradicting the claim that the employee still counts. -/
theorem spec_C4_counterexample :
    getClientTotalAllowancesCore [] none none "total_allowance" "desc" none [c4crow] =
      Except.ok [] := by
  unfold getClientTotalAllowancesCore
  rw [foldl_id (ctRowStep [] none) (ctRowStep_no_rates none) [c4crow] ctInit]
  rfl

/-- The same situation for `client_summary_service`: the outer join yields
`NULL` (`none`) for the amount. -/
def c4srow : SRow :=
  { duration_month := (2025, 1), client := some "C1", department := some "D1",
    emp_id := some "E1", emp_name := some "E1", client_partner := some "P",
    shift_type := some "A", days := some 2, amount := none }

theorem mem_deptRowsOf_sub (keys : List String) (rows : List SRow) (ym : Int × Int)
    (c d : String) {r : SRow} (h : r ∈ deptRowsOf keys rows ym c d) : r ∈ rows :=
  (List.mem_filter.mp
    (List.mem_filter.mp
      (List.mem_filter.mp ((List.mem_filter.mp h).1)).1).1).1

/-- C4 (amended): a row with no matching Rate Table entry for its shift type
and payroll year (`amount` NULL after the outer join) contributes exactly `0`
to every allowance and per-shift total in `client_summary_service`, while its
employee still counts toward the (unique-id) department head count; in
`get_client_total_allowances`, however, zero-amount mappings are skipped
entirely, so with an empty Rate Table the service returns no nodes and no
headcount contribution at all.  (Totals here are monetary; per-day counts
are not aggregated by either function.) -/
theorem spec_C4_amended_missing_rate :
    (∀ r : SRow, r.amount = none → rowValue r = 0) ∧
    (∀ (rows : List CRow) (allowed : Option (List String)) (rules : Option (List HRule))
       (so : String),
      getClientTotalAllowancesCore [] allowed rules "total_allowance" so none rows =
        Except.ok []) ∧
    (∀ (keys : List String) (rows : List SRow) (ym : Int × Int) (c d : String)
       (ma : MonthAgg) (ca : ClientAgg) (da : DeptAgg),
      alookup (aggregate keys rows) ym = some ma →
      alookup ma.clients c = some ca →
      alookup ca.departments d = some da →
      (∀ r ∈ rows, r.amount = none) →
      da.dept_total = 0 ∧ (∀ k, da.shift k = 0) ∧
        (finalizeDept da).dept_head_count =
          (((deptRowsOf keys rows ym c d).map eidOf).toFinset).card ∧
        1 ≤ (finalizeDept da).dept_head_count) := by
  have hrv : ∀ r : SRow, r.amount = none → rowValue r = 0 := by
    intro r h
    unfold rowValue
    rw [h]
    show (r.days.getD 0) * 0 = 0
    rw [mul_zero]
  refine ⟨hrv, ?_, ?_⟩
  · intro rows allowed rules so
    unfold getClientTotalAllowancesCore
    rw [foldl_id (ctRowStep [] allowed) (ctRowStep_no_rates allowed) rows ctInit]
    simp [ctAssemble, ctInit, List.insertionSort, ite_self]
  · intro keys rows ym c d ma ca da hm hc hd hnone
    obtain ⟨hda, hne⟩ := deptAgg_node_char keys rows ym c d ma ca da hm hc hd
    have hzero : ∀ r ∈ deptRowsOf keys rows ym c d, rowValue r = 0 :=
      fun r hr => hrv r (hnone r (mem_deptRowsOf_sub keys rows ym c d hr))
    refine ⟨?_, ?_, ?_, ?_⟩
    · rw [hda, deptAggOf_total]
      refine List.sum_eq_zero ?_
      intro x hx
      obtain ⟨r, hr, rfl⟩ := List.mem_map.mp hx
      exact hzero r hr
    · intro k
      rw [hda, deptAggOf_shift]
      refine List.sum_eq_zero ?_
      intro x hx
      obtain ⟨r, hr, rfl⟩ := List.mem_map.mp hx
      exact hzero r ((List.mem_filter.mp hr).1)
    · rw [hda, deptAggOf_head_count]
    · rw [hda, deptAggOf_head_count]
      cases hrows : deptRowsOf keys rows ym c d with
      | nil => exact absurd hrows hne
      | cons r rs =>
        have hmem : eidOf r ∈ ((r :: rs).map eidOf).toFinset := by simp
        exact Nat.one_le_iff_ne_zero.mpr (Finset.card_ne_zero_of_mem hmem)

/-- The chain of node lookups for the C4 witness. -/
def c4ma : MonthAgg := (alookup (aggregate ["A"] [c4srow]) (2025, 1)).getD monthInit

def c4ca : ClientAgg :=
  (alookup c4ma.clients "C1").getD { client_name := "", client_partner := "", departments := [] }

def c4da : DeptAgg := (alookup c4ca.departments "D1").getD deptInit

/-- Witness for the amended C4 at the counterexample row. -/
theorem spec_C4_amended_missing_rate_witness :
    c4srow.amount = none ∧ rowValue c4srow = 0 ∧
    getClientTotalAllowancesCore [] none none "total_allowance" "desc" none [c4crow] =
      Except.ok [] ∧
    (c4da.dept_total = 0 ∧ (∀ k, c4da.shift k = 0) ∧
      (finalizeDept c4da).dept_head_count =
        (((deptRowsOf ["A"] [c4srow] (2025, 1) "C1" "D1").map eidOf).toFinset).card ∧
      1 ≤ (finalizeDept c4da).dept_head_count) := by
  have h1 : alookup (aggregate ["A"] [c4srow]) (2025, 1) = some c4ma := rfl
  have h2 : alookup c4ma.clients "C1" = some c4ca := rfl
  have h3 : alookup c4ca.departments "D1" = some c4da := rfl
  refine ⟨rfl, spec_C4_amended_missing_rate.1 c4srow rfl,
    spec_C4_amended_missing_rate.2.1 [c4crow] none none "desc",
    spec_C4_amended_missing_rate.2.2 ["A"] [c4srow] (2025, 1) "C1" "D1" c4ma c4ca c4da
      h1 h2 h3 ?_⟩
  intro r hr
  rcases List.mem_singleton.mp hr with rfl
  rfl

/-! ## Claim C6 -/

theorem exc_bind_ok {α β : Type} (a : α) (f : α → Except HErr β) :
    (Except.ok a : Except HErr α) >>= f = f a := rfl

theorem mapExcept_ok {α : Type} (f : α → Except HErr α) (l : List α)
    (h : ∀ a ∈ l, f a = Except.ok a) : mapExcept f l = Except.ok l := by
  induction l with
  | nil => rfl
  | cons a t ih =>
    simp only [mapExcept, h a (List.mem_cons_self a t),
      ih (fun b hb => h b (List.mem_cons_of_mem a hb)), exc_bind_ok]

theorem searchValidateMonth_ok (m : Int) (h : 1 ≤ m ∧ m ≤ 12) :
    searchValidateMonth m = Except.ok m := by
  unfold searchValidateMonth
  rw [if_neg (not_not_intro h)]

theorem filterMap_eq_map_of_some {α β : Type} (f : α → Option β) (g : α → β)
    (l : List α) (h : ∀ a ∈ l, f a = some (g a)) : l.filterMap f = l.map g := by
  induction l with
  | nil => rfl
  | cons a t ih =>
    simp only [List.filterMap_cons, h a (List.mem_cons_self a t), List.map_cons,
      ih (fun b hb => h b (List.mem_cons_of_mem a hb))]

theorem dedupKeepFirst_eq_seenKeys {α : Type} [DecidableEq α] (l : List α) :
    dedupKeepFirst l = seenKeys id l [] := rfl

theorem mem_dedupKeepFirst {α : Type} [DecidableEq α] (l : List α) (x : α) :
    x ∈ dedupKeepFirst l ↔ x ∈ l := by
  rw [dedupKeepFirst_eq_seenKeys, mem_seenKeys]
  simp

theorem sortedDedupInt_ne_nil (l : List Int) (h : l ≠ []) : sortedDedupInt l ≠ [] := by
  intro hnil
  have hperm := List.perm_insertionSort (fun a b : Int => a ≤ b) (dedupKeepFirst l)
  unfold sortedDedupInt at hnil
  rw [hnil] at hperm
  have hd : dedupKeepFirst l = [] := hperm.symm.eq_nil
  cases l with
  | nil => exact h rfl
  | cons a t =>
    have hm : a ∈ dedupKeepFirst (a :: t) :=
      (mem_dedupKeepFirst (a :: t) a).mpr (List.mem_cons_self a t)
    rw [hd] at hm
    exact absurd hm (List.not_mem_nil a)

/-- C6 counterexample: an explicit months-only selection `[12]` with today =
2025-06 — every requested period is in the future — yet
`validate_years_months_with_warnings` does not fail: it answers `Except.ok`
with the silent fallback period `(2025, 3)` (the latest month with data),
adding only a warning string. -/
theorem spec_C6_counterexample :
    validateYearsMonthsWithWarnings (some [((2025 : Int), (3 : Int))]) (2025, 6) [] [12] =
      Except.ok ([(2025, 3)], ["future month(s) for 2025: [12]"]) := by rfl

/-- C6 (amended): with an explicit months-only selection in which every
requested month is valid (1..12) but in the future, `search_service`
(`_resolve_periods_with_meta`) raises a 400 error naming the excluded
periods, while `dashboard_service` (`validate_years_months_with_warnings`)
answers `Except.ok` with the fallback period(s) of
`_fallback_pairs_for_empty_selection`, attaching only a warning string —
it substitutes a fallback instead of failing. -/
theorem spec_C6_explicit_future (sdata : List YM) (ddata : Option (List YM))
    (today : YM) (months : List Int) (hne : months ≠ [])
    (hval : ∀ m ∈ months, 1 ≤ m ∧ m ≤ 12) (hfut : ∀ m ∈ months, today.2 < m) :
    resolvePeriodsWithMeta sdata today none (some months) =
      Except.error ⟨400, "All requested periods are in the future: "
        ++ String.intercalate ", " (months.map (fun m => ymStr (today.1, m)))⟩ ∧
    validateYearsMonthsWithWarnings ddata today [] months =
      Except.ok (fallbackPairsForEmptySelection ddata today
        ["future month(s) for " ++ toString today.1 ++ ": "
          ++ toString (sortedDedupInt months)]) := by
  constructor
  · have hmn : mapExcept searchValidateMonth months = Except.ok months :=
      mapExcept_ok _ _ (fun m hm => searchValidateMonth_ok m (hval m hm))
    have hmy : mapExcept (searchValidateYear today) [] = Except.ok [] := rfl
    have hfm2 : months.filterMap (fun m =>
        if m > today.2 then none else some ((today.1, m) : YM)) = [] :=
      List.filterMap_eq_nil_iff.mpr (fun m hm => by rw [if_pos (hfut m hm)])
    have hex : months.filterMap (fun m =>
        if m > today.2 then some (ymStr (today.1, m)) else none) =
        months.map (fun m => ymStr (today.1, m)) :=
      filterMap_eq_map_of_some _ _ _ (fun m hm => by rw [if_pos (hfut m hm)])
    have hsd : sortedDedupYM [] = [] := rfl
    simp only [resolvePeriodsWithMeta, Option.getD_none, Option.getD_some,
      hmy, hmn, exc_bind_ok, hfm2, hex, hsd, hne, ne_eq, not_false_eq_true,
      and_true, true_and, and_false, false_and, if_true, if_false, ite_true,
      ite_false, not_true_eq_false, and_self, List.map_eq_nil_iff]
  · have hc : coerceYears [] = Except.ok [] := rfl
    have hm1 : months.filter (fun m => m ≠ 0) = months :=
      List.filter_eq_self.mpr (fun a ha => by
        have h2 := (hval a ha).1
        simp
        omega)
    have hm2 : months.filter (fun m => 1 ≤ m ∧ m ≤ 12) = months :=
      List.filter_eq_self.mpr (fun a ha => by
        have h2 := hval a ha
        simp
        omega)
    have hfm : months.filter (fun m => m > today.2) = months :=
      List.filter_eq_self.mpr (fun a ha => by
        have h2 := hfut a ha
        simp
        omega)
    have hm3 : months.filter (fun m => m ≤ today.2) = [] :=
      List.filter_eq_nil_iff.mpr (fun a ha => by
        have h2 := hfut a ha
        simp
        omega)
    have hw : sortedDedupInt months ≠ [] := sortedDedupInt_ne_nil months hne
    simp only [validateYearsMonthsWithWarnings, hc, exc_bind_ok, List.filter_nil,
      hm1, hm2, hfm, hm3, hne, hw, ne_eq, not_false_eq_true, and_true, true_and,
      and_self, if_true, if_false, ite_true, ite_false, not_true_eq_false]

/-- Witness for the amended C6 at months = [12], today = 2025-06, search data
empty, dashboard data only in 2025-03. -/
theorem spec_C6_explicit_future_witness :
    (([(12 : Int)] ≠ []) ∧ (∀ m ∈ [(12 : Int)], 1 ≤ m ∧ m ≤ 12) ∧
      (∀ m ∈ [(12 : Int)], (((2025 : Int), (6 : Int)) : YM).2 < m)) ∧
    (resolvePeriodsWithMeta [] ((2025 : Int), (6 : Int)) none (some [12]) =
      Except.error ⟨400, "All requested periods are in the future: "
        ++ String.intercalate ", "
          (([(12 : Int)]).map (fun m => ymStr ((((2025 : Int), (6 : Int)) : YM).1, m)))⟩ ∧
    validateYearsMonthsWithWarnings (some [((2025 : Int), (3 : Int))])
        ((2025 : Int), (6 : Int)) [] [12] =
      Except.ok (fallbackPairsForEmptySelection (some [((2025 : Int), (3 : Int))])
        ((2025 : Int), (6 : Int))
        ["future month(s) for " ++ toString ((((2025 : Int), (6 : Int)) : YM)).1 ++ ": "
          ++ toString (sortedDedupInt [(12 : Int)])])) :=
  ⟨⟨by decide, by decide, by decide⟩,
    spec_C6_explicit_future [] (some [(2025, 3)]) (2025, 6) [12]
      (by decide) (by decide) (by decide)⟩

/-! ## Claim C7 -/

theorem splitOnChar_ne_nil (c : Char) (l : List Char) : splitOnChar c l ≠ [] := by
  induction l with
  | nil => simp [splitOnChar]
  | cons a t ih =>
    by_cases h : a = c
    · simp [splitOnChar, h]
    · cases hr : splitOnChar c t with
      | nil => simp [splitOnChar, h, hr]
      | cons x xs => simp [splitOnChar, h, hr]

theorem splitOnChar_not_mem (c : Char) (l : List Char) (h : c ∉ l) :
    splitOnChar c l = [l] := by
  induction l with
  | nil => rfl
  | cons a t ih =>
    have ha : a ≠ c := fun he => h (he ▸ List.mem_cons_self a t)
    have ht : c ∉ t := fun hm => h (List.mem_cons_of_mem a hm)
    simp [splitOnChar, ha, ih ht]

theorem splitOnChar_append (c : Char) (a b : List Char) (ha : c ∉ a) :
    splitOnChar c (a ++ c :: b) = a :: splitOnChar c b := by
  induction a with
  | nil => simp [splitOnChar]
  | cons x a2 ih =>
    have hx : x ≠ c := fun he => ha (he ▸ List.mem_cons_self x a2)
    have ha2 : c ∉ a2 := fun hm => ha (List.mem_cons_of_mem x hm)
    simp only [List.cons_append]
    simp [splitOnChar, hx, ih ha2]

theorem splitOnChar_two (c : Char) (a b : List Char) (ha : c ∉ a) (hb : c ∉ b) :
    splitOnChar c (a ++ c :: b) = [a, b] := by
  rw [splitOnChar_append c a b ha, splitOnChar_not_mem c b hb]

theorem no_nondigit_mem (a : List Char) (h : pyIsDigit a = true) (c : Char)
    (hc : ¬ c.isDigit = true) : c ∉ a := by
  intro hm
  unfold pyIsDigit at h
  rw [Bool.and_eq_true] at h
  exact hc (List.all_eq_true.mp h.2 c hm)

theorem pyIsDigit_false_of_mem (p : List Char) (c : Char) (hc : c ∈ p)
    (hnd : ¬ c.isDigit = true) : pyIsDigit p = false := by
  cases h : pyIsDigit p
  · rfl
  · exact absurd hc (no_nondigit_mem p h c hnd)

theorem mem_splitOnChar (c : Char) (l : List Char) (x : Char) (hx : x ∈ l) (hne : x ≠ c) :
    ∃ p ∈ splitOnChar c l, x ∈ p := by
  induction l with
  | nil => cases hx
  | cons a t ih =>
    by_cases hac : a = c
    · have hxt : x ∈ t := by
        cases List.mem_cons.mp hx with
        | inl h => exact absurd (h.trans hac) hne
        | inr h => exact h
      obtain ⟨p, hp, hxp⟩ := ih hxt
      have hsplit : splitOnChar c (a :: t) = [] :: splitOnChar c t := by
        simp [splitOnChar, hac]
      exact ⟨p, by rw [hsplit]; exact List.mem_cons_of_mem _ hp, hxp⟩
    · cases hr : splitOnChar c t with
      | nil => exact absurd hr (splitOnChar_ne_nil c t)
      | cons ph pt =>
        have hsplit : splitOnChar c (a :: t) = (a :: ph) :: pt := by
          simp [splitOnChar, hac, hr]
        cases List.mem_cons.mp hx with
        | inl hxa =>
          exact ⟨a :: ph, by rw [hsplit]; exact List.mem_cons_self _ _,
            by rw [hxa]; exact List.mem_cons_self a ph⟩
        | inr hxt =>
          obtain ⟨p, hp, hxp⟩ := ih hxt
          rw [hr] at hp
          cases List.mem_cons.mp hp with
          | inl hph =>
            exact ⟨a :: ph, by rw [hsplit]; exact List.mem_cons_self _ _,
              by rw [hph] at hxp; exact List.mem_cons_of_mem a hxp⟩
          | inr hpt =>
            exact ⟨p, by rw [hsplit]; exact List.mem_cons_of_mem _ hpt, hxp⟩

/-- C7 counterexample: `parse_headcount_ranges` accepts the zero bound in
`"0-5"` (no positivity requirement), and the en-dash variant of `"1-5"` is
not normalized to ASCII `-`: it is rejected as an invalid format instead of
parsing to `[1, 5]`. -/
theorem spec_C7_counterexample :
    parseHeadcountRanges (.many ["0-5"]) = Except.ok (some [(0, 5)]) ∧
    parseHeadcountRanges (.one ⟨['1', Char.ofNat 0x2013, '5']⟩) =
      Except.error ⟨400, "Invalid headcount range format: "
        ++ ⟨['1', Char.ofNat 0x2013, '5']⟩⟩ :=
  ⟨rfl, rfl⟩

/-- C7 (amended): a `"N-M"` item built from two ASCII digit strings parses to
`(N, M)` exactly when `N ≤ M`, with `N > M` a 400 error (no silent
correction) and no positivity requirement — zero bounds are accepted; an
item containing `'+'` is always rejected with an error by
`parse_headcount_ranges`; an item with no ASCII `-` that is not all digits
(in particular any unicode-dash spelling) is rejected, not normalized; and
the dashboard validation of `get_client_dashboard` rejects any `'+'`-bearing
item with a 400 error. -/
theorem spec_C7_range_rules :
    (∀ a b : List Char, pyIsDigit a = true → pyIsDigit b = true →
      parseRangeItem ⟨a ++ '-' :: b⟩ =
        if pyIntOfDigits a > pyIntOfDigits b then
          Except.error ⟨400, "Invalid headcount range: " ++ ⟨a ++ '-' :: b⟩⟩
        else Except.ok (pyIntOfDigits a, pyIntOfDigits b)) ∧
    (∀ l : List Char, ('+' : Char) ∈ l → ∃ e, parseRangeItem ⟨l⟩ = Except.error e) ∧
    (∀ l : List Char, ('-' : Char) ∉ l → pyIsDigit l = false →
      parseRangeItem ⟨l⟩ =
        Except.error ⟨400, "Invalid headcount range format: " ++ ⟨l⟩⟩) ∧
    (∀ (item : String) (t : List String), ('+' : Char) ∈ (pyStrip item).data →
      validateDashboardHeadcounts (item :: t) =
        Except.error ⟨400, "Invalid headcount format: " ++ item
          ++ ". Use format like 1-10."⟩) := by
  refine ⟨?_, ?_, ?_, ?_⟩
  · intro a b hda hdb
    have hna : ('-' : Char) ∉ a := no_nondigit_mem a hda '-' (by decide)
    have hnb : ('-' : Char) ∉ b := no_nondigit_mem b hdb '-' (by decide)
    have hmem : ('-' : Char) ∈ (a ++ '-' :: b) :=
      List.mem_append_right a (List.mem_cons_self _ _)
    have hdata : ((⟨a ++ '-' :: b⟩ : String)).data = a ++ '-' :: b := rfl
    unfold parseRangeItem
    simp only [hdata, if_pos hmem, splitOnChar_two '-' a b hna hnb, hda, hdb,
      Bool.and_self, if_true, ite_true]
  · intro l hp
    have hdata : ((⟨l⟩ : String)).data = l := rfl
    unfold parseRangeItem
    by_cases hd : ('-' : Char) ∈ l
    · simp only [hdata, if_pos hd]
      obtain ⟨p, hpmem, hplus⟩ := mem_splitOnChar '-' l '+' hp (by decide)
      cases hs : splitOnChar '-' l with
      | nil => exact ⟨_, rfl⟩
      | cons p1 ps =>
        cases ps with
        | nil => exact ⟨_, rfl⟩
        | cons p2 ps2 =>
          cases ps2 with
          | nil =>
            rw [hs] at hpmem
            have hnd : (pyIsDigit p1 && pyIsDigit p2) = false := by
              cases List.mem_cons.mp hpmem with
              | inl h1 =>
                have h2 := pyIsDigit_false_of_mem p1 '+' (h1 ▸ hplus) (by decide)
                simp [h2]
              | inr h1 =>
                have hp2 : p = p2 := by simpa using h1
                have h2 := pyIsDigit_false_of_mem p2 '+' (hp2 ▸ hplus) (by decide)
                simp [h2]
            simp only [hnd, Bool.false_eq_true, if_false, ite_false]
            exact ⟨_, rfl⟩
          | cons p3 ps3 => exact ⟨_, rfl⟩
    · have hdig : ¬ (pyIsDigit l = true) := by
        simp [pyIsDigit_false_of_mem l '+' hp (by decide)]
      simp only [hdata, if_neg hd, if_neg hdig]
      exact ⟨_, rfl⟩
  · intro l hd hdig
    have hdata : ((⟨l⟩ : String)).data = l := rfl
    unfold parseRangeItem
    simp only [hdata, if_neg hd, if_neg (by simp [hdig] : ¬ (pyIsDigit l = true))]
  · intro item t hplus
    unfold validateDashboardHeadcounts
    simp only [if_pos hplus]

/-- Witness for the amended C7: `"0-5"` parses to `(0, 5)`; `"5+"` is
rejected by the range parser; the en-dash `"1–5"` is rejected unnormalized;
the dashboard validation rejects `"5+"`. -/
theorem spec_C7_range_rules_witness :
    ((pyIsDigit ['0'] = true) ∧ (pyIsDigit ['5'] = true) ∧
      parseRangeItem ⟨['0'] ++ '-' :: ['5']⟩ =
        Except.ok (pyIntOfDigits ['0'], pyIntOfDigits ['5'])) ∧
    (('+' : Char) ∈ ['5', '+'] ∧ ∃ e, parseRangeItem ⟨['5', '+']⟩ = Except.error e) ∧
    ((('-' : Char) ∉ ['1', Char.ofNat 0x2013, '5']) ∧
      pyIsDigit ['1', Char.ofNat 0x2013, '5'] = false ∧
      parseRangeItem ⟨['1', Char.ofNat 0x2013, '5']⟩ =
        Except.error ⟨400, "Invalid headcount range format: "
          ++ ⟨['1', Char.ofNat 0x2013, '5']⟩⟩) ∧
    (('+' : Char) ∈ (pyStrip "5+").data ∧ validateDashboardHeadcounts ["5+"] =
      Except.error ⟨400, "Invalid headcount format: " ++ "5+"
        ++ ". Use format like 1-10."⟩) := by
  obtain ⟨h1, h2, h3, h4⟩ := spec_C7_range_rules
  refine ⟨⟨by decide, by decide, ?_⟩,
    ⟨by decide, h2 ['5', '+'] (by decide)⟩,
    ⟨by decide, by decide, h3 ['1', Char.ofNat 0x2013, '5'] (by decide) (by decide)⟩,
    ⟨by decide, h4 "5+" [] (by decide)⟩⟩
  have h5 := h1 ['0'] ['5'] (by decide) (by decide)
  rw [if_neg (by decide)] at h5
  exact h5

/-! ## Claim C8 -/

/-- The composite `name|dept|client` fallback of `_extract_employee_id`. -/
theorem extractEmployeeId_composite (r : CRow) (hid : r.emp_id.getD "" = "")
    (hname : pyStrip (r.emp_name.getD "") ≠ "") :
    extractEmployeeId r = some (pyStrip (r.emp_name.getD "") ++ "|"
      ++ pyStrip (r.department.getD "") ++ "|" ++ pyStrip (r.client.getD "")) := by
  unfold extractEmployeeId
  rw [dif_neg (fun h => h.2 hid)]
  simp only []
  rw [if_pos (Or.inl hname)]

/-- Two rows of `client_summary_service` with null employee ids, distinct
names (Alice, Bob), same client/department/shift. -/
def c8rows : List SRow :=
  [{ duration_month := (2025, 1), client := some "C1", department := some "D1",
     emp_id := none, emp_name := some "Alice", client_partner := some "P",
     shift_type := some "A", days := some 1, amount := some 100 },
   { duration_month := (2025, 1), client := some "C1", department := some "D1",
     emp_id := none, emp_name := some "Bob", client_partner := some "P",
     shift_type := some "A", days := some 1, amount := some 100 }]

/-- C8 counterexample: in `client_summary_service` two rows with null ids and
different employee names are silently merged into one `""`-keyed employee
entry (`dept_head_count = 1`, the surviving entry keeps the first name,
Alice) and are dropped entirely from the client head count
(`client_head_count = 0`): no composite fallback identity is synthesised
there. -/
theorem spec_C8_counterexample :
    ((clientSummaryPipeline ["A"] none "client_total" "desc" c8rows).map
      (fun p => (p.1, p.2.clients.map (fun q =>
        (q.1, q.2.client_head_count,
          q.2.departments.map (fun d => (d.1, d.2.dept_head_count,
            d.2.employees.map (fun e => (e.emp_id, e.emp_name))))))))) =
      [((2025, 1), [("C1", 0, [("D1", 1, [("", "Alice")])])])] := by rfl

/-- C8 (amended): only `client_comparision_service._extract_employee_id`
synthesises the `name|dept|client` composite fallback, and it does keep
distinct-named null-id employees distinct.  `client_summary_service` cleans a
null id to `""`, merging every null-id row of a department into one employee
entry and excluding them from the client-level unique-id head count, and the
dashboard aggregation never counts the empty id in any head-count set. -/
theorem spec_C8_null_id_fallback :
    (∀ r : CRow, r.emp_id.getD "" = "" → pyStrip (r.emp_name.getD "") ≠ "" →
      extractEmployeeId r = some (pyStrip (r.emp_name.getD "") ++ "|"
        ++ pyStrip (r.department.getD "") ++ "|" ++ pyStrip (r.client.getD ""))) ∧
    (∀ r1 r2 : CRow, r1.emp_id.getD "" = "" → r2.emp_id.getD "" = "" →
      pyStrip (r1.emp_name.getD "") ≠ "" → pyStrip (r2.emp_name.getD "") ≠ "" →
      pyStrip (r1.department.getD "") = pyStrip (r2.department.getD "") →
      pyStrip (r1.client.getD "") = pyStrip (r2.client.getD "") →
      pyStrip (r1.emp_name.getD "") ≠ pyStrip (r2.emp_name.getD "") →
      extractEmployeeId r1 ≠ extractEmployeeId r2) ∧
    (∀ r : SRow, r.emp_id = none → eidOf r = "") ∧
    (∀ ds : List SRow, ds ≠ [] → (∀ r ∈ ds, eidOf r = "") →
      (finalizeDept (deptAggOf ds)).dept_head_count = 1) ∧
    (∀ depts : List (String × DeptOut), ("" : String) ∉ clientUniqueIds depts) ∧
    (∀ (st : List String) (ds : List DRow),
      ("" : String) ∉ (pnodeOf st ds).head_count) := by
  refine ⟨extractEmployeeId_composite, ?_, ?_, ?_, ?_, ?_⟩
  · intro r1 r2 h1 h2 hn1 hn2 hd hc hnn heq
    rw [extractEmployeeId_composite r1 h1 hn1, extractEmployeeId_composite r2 h2 hn2] at heq
    have hs := Option.some.inj heq
    rw [hd, hc] at hs
    have hdata := congrArg String.data hs
    simp only [String.data_append] at hdata
    have h3 := List.append_cancel_right hdata
    have h4 := List.append_cancel_right h3
    have h5 := List.append_cancel_right h4
    have h6 := List.append_cancel_right h5
    exact hnn (String.ext h6)
  · intro r h
    unfold eidOf cleanStr
    rw [h]
  · intro ds hne0 hall
    rw [deptAggOf_head_count]
    have hset : (ds.map eidOf).toFinset = {""} := by
      ext x
      simp only [List.mem_toFinset, List.mem_map, Finset.mem_singleton]
      constructor
      · rintro ⟨r, hr, he⟩
        rw [← he]
        exact hall r hr
      · rintro rfl
        cases ds with
        | nil => exact absurd rfl hne0
        | cons r t => exact ⟨r, List.mem_cons_self r t, hall r (List.mem_cons_self r t)⟩
    rw [hset, Finset.card_singleton]
  · intro depts hmem
    exact ((mem_clientUniqueIds depts "").mp hmem).1 rfl
  · intro st ds hmem
    unfold pnodeOf at hmem
    rw [pFold_heads] at hmem
    simp only [emptyPNode, Finset.empty_union, List.mem_toFinset, List.mem_map,
      List.mem_filter, Finset.mem_union, Finset.not_mem_empty, false_or] at hmem
    obtain ⟨r, hr, he⟩ := hmem
    have : dEid r ≠ "" := by simpa using hr.2
    exact this he

/-- The Alice row of the C8 scenario as a comparision-service `CRow`. -/
def c8crow1 : CRow :=
  { emp_id := none, emp_name := some "Alice", department := some "D1",
    client := some "C1", client_partner := some "P", shift_mappings := [] }

/-- The Bob row of the C8 scenario as a comparision-service `CRow`. -/
def c8crow2 : CRow :=
  { emp_id := none, emp_name := some "Bob", department := some "D1",
    client := some "C1", client_partner := some "P", shift_mappings := [] }

/-- Witness for the amended C8 at the Alice/Bob null-id rows of the
counterexample scenario. -/
theorem spec_C8_null_id_fallback_witness :
    ((c8crow1.emp_id.getD "" = "") ∧
      pyStrip "Alice" ≠ "" ∧ pyStrip "Bob" ≠ "" ∧ pyStrip "Alice" ≠ pyStrip "Bob") ∧
    extractEmployeeId c8crow1 ≠ extractEmployeeId c8crow2 ∧
    (∀ r ∈ c8rows, eidOf r = "") ∧
    (finalizeDept (deptAggOf c8rows)).dept_head_count = 1 ∧
    ("" : String) ∉ clientUniqueIds [] ∧
    ("" : String) ∉ (pnodeOf ["A"] []).head_count := by
  obtain ⟨h1, h2, h3, h4, h5, h6⟩ := spec_C8_null_id_fallback
  refine ⟨⟨by decide, by decide, by decide, by decide⟩,
    h2 _ _ (by decide) (by decide) (by decide) (by decide) (by decide) (by decide)
      (by decide),
    ?_, h4 c8rows (by unfold c8rows; exact List.cons_ne_nil _ _) ?_, h5 [], h6 ["A"] []⟩
  · intro r hr
    unfold c8rows at hr
    cases List.mem_cons.mp hr with
    | inl h => rw [h]; rfl
    | inr h =>
      cases List.mem_cons.mp h with
      | inl h7 => rw [h7]; rfl
      | inr h7 => cases h7
  · intro r hr
    unfold c8rows at hr
    cases List.mem_cons.mp hr with
    | inl h => rw [h]; rfl
    | inr h =>
      cases List.mem_cons.mp h with
      | inl h7 => rw [h7]; rfl
      | inr h7 => cases h7

/-! ## Claim C9 -/

theorem exc_bind_pure {α β : Type} (a : α) (f : α → Except HErr β) :
    (pure a : Except HErr α) >>= f = f a := rfl

/-- A row of the latest cached-over month (2025-01). -/
def c9row1 : SRow :=
  { duration_month := (2025, 1), client := some "C1", department := some "D1",
    emp_id := some "E1", emp_name := some "E1", client_partner := some "P",
    shift_type := some "A", days := some 1, amount := some 100 }

/-- A newer row (2025-02) that arrives after the cache was filled. -/
def c9row2 : SRow :=
  { duration_month := (2025, 2), client := some "C1", department := some "D1",
    emp_id := some "E2", emp_name := some "E2", client_partner := some "P",
    shift_type := some "A", days := some 1, amount := some 100 }

def c9db : List SRow := [c9row1, c9row2]

/-- The stale cached month object (contents arbitrary). -/
def c9dummy : MonthOut :=
  { clients := [], month_total_shift := fun _ => 0, total_head_count := 0,
    total_allowance := 37 }

/-- The stale cached response: only the old month 2025-01. -/
def c9resp : List ((Int × Int) × MonthOut) := [((2025, 1), c9dummy)]

/-- A cache holding `c9resp` under the key of the default payload. -/
def c9cache : CacheKey → Option (List ((Int × Int) × MonthOut)) :=
  fun k => if k = responseCacheKey {} then some c9resp else none

/-- The observable list of month keys of a service response. -/
def summaryMonthKeys : Except HErr SummaryOut → Option (List (Int × Int))
  | Except.ok (SummaryOut.months out) => some (out.map Prod.fst)
  | _ => none

/-- C9 counterexample: the response cache key is built only from the payload
fields (`responseCacheKey`), with neither the resolved latest period nor any
shift-key fingerprint.  With data now extending to 2025-02, a default-shape
request still returns the stale cached months `[(2025, 1)]` verbatim, while
the same request with the cache disabled recomputes and returns
`[(2025, 2)]`; changing the shift-key configuration (`["A", "B"]`) hits the
very same cache entry. -/
theorem spec_C9_counterexample :
    summaryMonthKeys (clientSummaryService ["A"] c9db (2025, 6) {} c9cache) =
      some [(2025, 1)] ∧
    summaryMonthKeys (clientSummaryService ["A"] c9db (2025, 6) {} (fun k => none)) =
      some [(2025, 2)] ∧
    summaryMonthKeys (clientSummaryService ["A", "B"] c9db (2025, 6) {} c9cache) =
      some [(2025, 1)] :=
  ⟨rfl, rfl, rfl⟩

/-- C9 (amended): for the default request shape, the cache key is the
version constant plus payload fields only; a cache hit returns the stored
list verbatim, independent of the Row Source contents and of the shift-key
configuration (so new data or a shift-key change does not invalidate it),
while a disabled (always-`none`) cache always recomputes through
the query-and-aggregate path `clientSummaryRun`. -/
theorem spec_C9_cache_key (keys : List String) (db : List SRow) (today : YM)
    (payload : SPayload)
    (cache : CacheKey → Option (List ((Int × Int) × MonthOut)))
    (v : List ((Int × Int) × MonthOut))
    (h1 : payload.shifts = none) (h2 : payload.headcounts = none)
    (h3 : payload.years = []) (h4 : payload.months = [])
    (h5 : cache (responseCacheKey payload) = some v) (h6 : v.isEmpty = false)
    (h7 : resolveTargetMonths db today payload
      (clientsListOf (payload.clients.getD (.s "ALL")))
      (departmentsListOf (payload.departments.getD (.s "ALL")))
      payload.emp_id payload.client_partner
      (keys.map (fun k => pyUpper (cleanStr (some k)))) ≠ []) :
    clientSummaryService keys db today payload cache = Except.ok (.months v) ∧
    clientSummaryService keys db today payload (fun k => none) =
      Except.ok (.months (clientSummaryService.clientSummaryRun
        (keys.map (fun k => pyUpper (cleanStr (some k)))) db payload
        (clientsListOf (payload.clients.getD (.s "ALL")))
        (departmentsListOf (payload.departments.getD (.s "ALL")))
        payload.emp_id payload.client_partner
        (keys.map (fun k => pyUpper (cleanStr (some k)))) none
        (resolveTargetMonths db today payload
          (clientsListOf (payload.clients.getD (.s "ALL")))
          (departmentsListOf (payload.departments.getD (.s "ALL")))
          payload.emp_id payload.client_partner
          (keys.map (fun k => pyUpper (cleanStr (some k))))))) := by
  have hall : (SLVal.s "ALL") = SLVal.s "ALL" := rfl
  have hrng : parseHeadcountRanges HPayload.all = Except.ok none := rfl
  constructor
  · simp only [clientSummaryService, h1, h2, h3, h4, Option.getD_none, dif_pos hall,
      exc_bind_pure, hrng, exc_bind_ok, if_neg h7, and_self, dite_eq_ite, ite_true,
      h5, h6, Bool.false_eq_true, if_false, ite_false]
  · simp only [clientSummaryService, h1, h2, h3, h4, Option.getD_none, dif_pos hall,
      exc_bind_pure, hrng, exc_bind_ok, if_neg h7, and_self, dite_eq_ite, ite_true,
      ite_self]

/-- Witness for the amended C9 at the concrete stale-cache scenario. -/
theorem spec_C9_cache_key_witness :
    (({} : SPayload).shifts = none ∧ ({} : SPayload).headcounts = none ∧
      ({} : SPayload).years = [] ∧ ({} : SPayload).months = [] ∧
      c9cache (responseCacheKey {}) = some c9resp ∧ c9resp.isEmpty = false) ∧
    clientSummaryService ["A"] c9db (2025, 6) {} c9cache =
      Except.ok (.months c9resp) ∧
    clientSummaryService ["A"] c9db (2025, 6) {} (fun k => none) =
      Except.ok (.months (clientSummaryService.clientSummaryRun ["A"] c9db {} [] []
        none none ["A"] none [(2025, 2)])) := by
  have happ := spec_C9_cache_key ["A"] c9db (2025, 6) {} c9cache c9resp
    rfl rfl rfl rfl rfl rfl (by decide)
  exact ⟨⟨rfl, rfl, rfl, rfl, rfl, rfl⟩, happ.1, happ.2⟩

/-! ## Claim C10 -/

/-- Every entry that survives `filterClients` carries the recomputed sums and
a passing headcount. -/
theorem filterClients_entry (ranges : Option (List (Nat × Nat)))
    (cs : List (String × ClientFin)) (q : String × ClientOut)
    (hq : q ∈ filterClients ranges cs) :
    q.2.client_total = ((q.2.departments.map Prod.snd).map DeptOut.dept_total).sum ∧
    (∀ k, q.2.shift k = ((q.2.departments.map Prod.snd).map (fun d => d.shift k)).sum) ∧
    q.2.client_head_count = (clientUniqueIds q.2.departments).card ∧
    rangeMatches ((clientUniqueIds q.2.departments).card) ranges = true := by
  obtain ⟨a, ha, hfa⟩ := List.mem_filterMap.mp hq
  by_cases hr : rangeMatches ((clientUniqueIds a.2.departments).card) ranges = true
  · simp only [hr, if_true, ite_true] at hfa
    have hq2 := (Option.some.inj hfa).symm
    rw [hq2]
    exact ⟨rfl, fun k => rfl, rfl, hr⟩
  · simp only [hr, if_false, ite_false] at hfa
    cases hfa

/-- C10: after the headcount filter, every month node's totals (per-shift,
head count, allowance) are the sums of the corresponding fields over exactly
the surviving clients, and every surviving client's `client_total` is the
sum of its departments' `dept_total` (and its per-shift totals the sums of
the department shifts), with a head count that passes the requested ranges —
dropping a client removes its contribution from the month totals. -/
theorem spec_C10_month_totals (keys : List String)
    (ranges : Option (List (Nat × Nat))) (sort_by sort_order : String)
    (rows : List SRow) (ym : Int × Int) (mo : MonthOut)
    (hmem : (ym, mo) ∈ clientSummaryPipeline keys ranges sort_by sort_order rows) :
    (∀ k, mo.month_total_shift k =
      ((mo.clients.map Prod.snd).map (fun c => c.shift k)).sum) ∧
    mo.total_head_count =
      ((mo.clients.map Prod.snd).map ClientOut.client_head_count).sum ∧
    mo.total_allowance = ((mo.clients.map Prod.snd).map ClientOut.client_total).sum ∧
    (∀ c ∈ mo.clients,
      c.2.client_total = ((c.2.departments.map Prod.snd).map DeptOut.dept_total).sum ∧
      (∀ k, c.2.shift k = ((c.2.departments.map Prod.snd).map (fun d => d.shift k)).sum) ∧
      c.2.client_head_count = (clientUniqueIds c.2.departments).card ∧
      rangeMatches ((clientUniqueIds c.2.departments).card) ranges = true) := by
  obtain ⟨p, hp, heq⟩ := List.mem_map.mp hmem
  have hmo : mo = buildMonth keys ranges sort_by sort_order p.2 :=
    (congrArg Prod.snd heq).symm
  subst hmo
  refine ⟨fun k => rfl, rfl, rfl, ?_⟩
  intro c hc
  have hperm := sortClients_perm keys sort_by sort_order
    (filterClients ranges (p.2.clients.map (fun q => (q.1, finalizeClient q.2))))
  have hcf : c ∈ filterClients ranges
      (p.2.clients.map (fun q => (q.1, finalizeClient q.2))) := hperm.mem_iff.mp hc
  exact filterClients_entry ranges _ c hcf

/-- One row for the C10 witness scenario. -/
def c10rows : List SRow :=
  [{ duration_month := (2025, 1), client := some "C1", department := some "D1",
     emp_id := some "E1", emp_name := some "E1", client_partner := some "P",
     shift_type := some "A", days := some 1, amount := some 100 }]

/-- The single month node the pipeline produces on `c10rows`. -/
def c10mo : MonthOut :=
  ((clientSummaryPipeline ["A"] none "head_count" "desc" c10rows).head?.getD
    ((0, 0), ⟨[], fun _ => 0, 0, 0⟩)).2

/-- Witness for C10 at the one-row scenario `c10rows`. -/
theorem spec_C10_month_totals_witness :
    (((2025 : Int), (1 : Int)), c10mo) ∈
      clientSummaryPipeline ["A"] none "head_count" "desc" c10rows ∧
    ((∀ k, c10mo.month_total_shift k =
      ((c10mo.clients.map Prod.snd).map (fun c => c.shift k)).sum) ∧
    c10mo.total_head_count =
      ((c10mo.clients.map Prod.snd).map ClientOut.client_head_count).sum ∧
    c10mo.total_allowance =
      ((c10mo.clients.map Prod.snd).map ClientOut.client_total).sum ∧
    (∀ c ∈ c10mo.clients,
      c.2.client_total = ((c.2.departments.map Prod.snd).map DeptOut.dept_total).sum ∧
      (∀ k, c.2.shift k = ((c.2.departments.map Prod.snd).map (fun d => d.shift k)).sum) ∧
      c.2.client_head_count = (clientUniqueIds c.2.departments).card ∧
      rangeMatches ((clientUniqueIds c.2.departments).card) none = true)) := by
  have hlist : clientSummaryPipeline ["A"] none "head_count" "desc" c10rows =
      [(((2025 : Int), (1 : Int)), c10mo)] := rfl
  have hmem : (((2025 : Int), (1 : Int)), c10mo) ∈
      clientSummaryPipeline ["A"] none "head_count" "desc" c10rows := by
    rw [hlist]
    exact List.mem_singleton.mpr rfl
  exact ⟨hmem, spec_C10_month_totals ["A"] none "head_count" "desc" c10rows
    (2025, 1) c10mo hmem⟩

end ShiftRepo
